import Mathlib

/-!
Verification of the canvas-item core of the `moments` repository.

The development shallowly embeds:
* `src/hooks/useCanvasItems.ts` — the item collection and its operations
  (add, drag, rotate, resize, update, delete, move up / move down);
* the viewport-culling memo `visibleItems` of
  `src/components/CanvasWithItems.tsx`;
* the pointer-interaction handlers of `src/components/DraggableItem.tsx`
  (`checkCornerType`, `handleMouseDown`, and the window `mousemove` /
  `mouseup` listeners installed by its effect).

Modelling conventions:
* JavaScript `number` is modelled by `ℚ` for the collection/culling code
  (whose arithmetic is `+ - * /`, `min`, `max` and comparisons) and by `ℝ`
  for the pointer code (which also uses `Math.sqrt` and `Math.atan2`).
  Arithmetic is exact, abstracting from IEEE-754 rounding.
* `Date` timestamps (`new Date()`) are modelled by an explicit `now : ℚ`
  (resp. `ℝ`) argument supplied to each operation that stamps `updatedAt`.
* Item ids are `String`s as in the source; `parseInt(item.id) || 0` is
  modelled by `String.toNat?` with default `0`, which agrees with
  `parseInt` on the canonical decimal ids the hook allocates, and
  `String(n)` by `toString`.
* React `useState` updates are modelled as pure state transitions; within
  a single DOM event handler the code reads the closure's (old) state, and
  the model reproduces that (see `mouseMoveM`).
-/

/-! ### Generic fold-based max/min

`Math.max(...xs)` / `Math.min(...xs)` on a non-empty argument list
`x :: l` are modelled by folding the binary `max` / `min` from `x`. -/

def foldMax {α : Type} [LinearOrder α] (x : α) (l : List α) : α :=
  l.foldl max x

def foldMin {α : Type} [LinearOrder α] (x : α) (l : List α) : α :=
  l.foldl min x

theorem le_foldMax {α : Type} [LinearOrder α] (x : α) (l : List α) :
    x ≤ foldMax x l := by
  induction l generalizing x with
  | nil => exact le_rfl
  | cons y ys ih =>
    exact le_trans (le_max_left x y) (ih (max x y))

theorem le_foldMax_of_mem {α : Type} [LinearOrder α] {x y : α} {l : List α}
    (h : y ∈ l) : y ≤ foldMax x l := by
  induction l generalizing x with
  | nil => cases h
  | cons z zs ih =>
    rcases List.mem_cons.1 h with rfl | hz
    · exact le_trans (le_max_right x y) (le_foldMax (max x y) zs)
    · exact ih hz

theorem foldMax_mem {α : Type} [LinearOrder α] (x : α) (l : List α) :
    foldMax x l = x ∨ foldMax x l ∈ l := by
  induction l generalizing x with
  | nil => exact Or.inl rfl
  | cons y ys ih =>
    rcases ih (max x y) with h | h
    · rcases max_cases x y with ⟨hm, _⟩ | ⟨hm, _⟩
      · refine Or.inl ?_
        simp only [foldMax, List.foldl_cons] at h ⊢
        rw [h]; exact hm
      · refine Or.inr (List.mem_cons.2 (Or.inl ?_))
        simp only [foldMax, List.foldl_cons] at h ⊢
        rw [h]; exact hm
    · exact Or.inr (List.mem_cons.2 (Or.inr h))

theorem foldMin_le {α : Type} [LinearOrder α] (x : α) (l : List α) :
    foldMin x l ≤ x := by
  induction l generalizing x with
  | nil => exact le_rfl
  | cons y ys ih =>
    exact le_trans (ih (min x y)) (min_le_left x y)

theorem foldMin_le_of_mem {α : Type} [LinearOrder α] {x y : α} {l : List α}
    (h : y ∈ l) : foldMin x l ≤ y := by
  induction l generalizing x with
  | nil => cases h
  | cons z zs ih =>
    rcases List.mem_cons.1 h with rfl | hz
    · exact le_trans (foldMin_le (min x y) zs) (min_le_right x y)
    · exact ih hz

theorem foldMin_mem {α : Type} [LinearOrder α] (x : α) (l : List α) :
    foldMin x l = x ∨ foldMin x l ∈ l := by
  induction l generalizing x with
  | nil => exact Or.inl rfl
  | cons y ys ih =>
    rcases ih (min x y) with h | h
    · rcases min_cases x y with ⟨hm, _⟩ | ⟨hm, _⟩
      · refine Or.inl ?_
        simp only [foldMin, List.foldl_cons] at h ⊢
        rw [h]; exact hm
      · refine Or.inr (List.mem_cons.2 (Or.inl ?_))
        simp only [foldMin, List.foldl_cons] at h ⊢
        rw [h]; exact hm
    · exact Or.inr (List.mem_cons.2 (Or.inr h))

/-! ### Decimal numerals

`String(n)` in JavaScript and `toString`/`Nat.repr` in the model produce
the canonical decimal numeral; `parseInt` reads it back.  The facts below
let the development compute with ids allocated by `getNextId`. -/

def natDigits (n : ℕ) : List Char :=
  if n < 10 then [Nat.digitChar n]
  else natDigits (n / 10) ++ [Nat.digitChar (n % 10)]
termination_by n
decreasing_by
  exact Nat.div_lt_self (by omega) (by omega)

theorem natDigits_eq (n : ℕ) :
    natDigits n =
      if n < 10 then [Nat.digitChar n]
      else natDigits (n / 10) ++ [Nat.digitChar (n % 10)] := by
  rw [natDigits]

theorem natDigits_ne_nil (n : ℕ) : natDigits n ≠ [] := by
  rw [natDigits_eq]
  split
  · simp
  · simp

theorem digitChar_isDigit {m : ℕ} (h : m < 10) :
    (Nat.digitChar m).isDigit = true := by
  interval_cases m <;> decide

theorem digitChar_toNat {m : ℕ} (h : m < 10) :
    (Nat.digitChar m).toNat - '0'.toNat = m := by
  interval_cases m <;> decide

theorem natDigits_all_isDigit (n : ℕ) :
    ∀ c ∈ natDigits n, c.isDigit = true := by
  induction n using Nat.strong_induction_on with
  | _ n ih =>
    rw [natDigits_eq]
    split
    · intro c hc
      rcases List.mem_singleton.1 hc with rfl
      exact digitChar_isDigit (by omega)
    · intro c hc
      rcases List.mem_append.1 hc with hc | hc
      · exact ih (n / 10) (Nat.div_lt_self (by omega) (by omega)) c hc
      · rcases List.mem_singleton.1 hc with rfl
        exact digitChar_isDigit (Nat.mod_lt n (by omega))

theorem natDigits_foldl (n : ℕ) :
    ∀ a : ℕ,
      List.foldl (fun acc c => acc * 10 + (c.toNat - '0'.toNat)) a (natDigits n) =
        a * 10 ^ (natDigits n).length + n := by
  induction n using Nat.strong_induction_on with
  | _ n ih =>
    intro a
    rw [natDigits_eq]
    split
    · next h =>
      simp only [List.foldl_cons, List.foldl_nil, List.length_singleton, pow_one]
      rw [digitChar_toNat h]
    · next h =>
      have hlt : n / 10 < n := Nat.div_lt_self (by omega) (by omega)
      rw [List.foldl_append, ih (n / 10) hlt a]
      simp only [List.foldl_cons, List.foldl_nil, List.length_append,
        List.length_singleton]
      rw [digitChar_toNat (Nat.mod_lt n (by omega))]
      have hmod := Nat.div_add_mod n 10
      ring_nf
      omega

theorem repr_eq_natDigits (n : ℕ) : Nat.repr n = ⟨natDigits n⟩ := by
  show (Nat.toDigits 10 n).asString = _
  have core : ∀ fuel m ds, m < fuel →
      Nat.toDigitsCore 10 fuel m ds = natDigits m ++ ds := by
    intro fuel
    induction fuel with
    | zero => intro m ds h; omega
    | succ f ihf =>
      intro m ds h
      show (if m / 10 = 0 then Nat.digitChar (m % 10) :: ds
            else Nat.toDigitsCore 10 f (m / 10) (Nat.digitChar (m % 10) :: ds)) = _
      split
      · next h0 =>
        have hm : m < 10 := by omega
        rw [natDigits_eq, if_pos hm, Nat.mod_eq_of_lt hm]
        simp
      · next h0 =>
        have hm : ¬ m < 10 := by omega
        have hlt : m / 10 < f := by
          have := Nat.div_lt_self (show 0 < m by omega) (show 1 < 10 by omega)
          omega
        rw [ihf (m / 10) (Nat.digitChar (m % 10) :: ds) hlt]
        conv_rhs => rw [natDigits_eq, if_neg hm]
        simp
  show (Nat.toDigitsCore 10 (n + 1) n []).asString = _
  rw [core (n + 1) n [] (by omega)]
  simp [List.asString]

theorem toNat?_repr (n : ℕ) : (Nat.repr n).toNat? = some n := by
  rw [repr_eq_natDigits]
  have hdata : (⟨natDigits n⟩ : String).data = natDigits n := rfl
  have hne : (⟨natDigits n⟩ : String) ≠ "" := by
    intro hcontra
    exact natDigits_ne_nil n (by simpa [hdata] using congrArg String.data hcontra)
  have hempty : (⟨natDigits n⟩ : String).isEmpty = false := by
    by_contra hb
    have : (⟨natDigits n⟩ : String).isEmpty = true := by
      revert hb; cases (⟨natDigits n⟩ : String).isEmpty <;> simp
    exact hne ((String.isEmpty_iff _).1 this)
  have hall : (⟨natDigits n⟩ : String).all (·.isDigit) = true := by
    rw [String.all_eq, hdata, List.all_eq_true]
    exact natDigits_all_isDigit n
  have hnat : (⟨natDigits n⟩ : String).isNat = true := by
    show (!(⟨natDigits n⟩ : String).isEmpty && (⟨natDigits n⟩ : String).all (·.isDigit)) = true
    rw [hempty, hall]
    rfl
  show (if (⟨natDigits n⟩ : String).isNat then
      some ((⟨natDigits n⟩ : String).foldl (fun acc c => acc * 10 + (c.toNat - '0'.toNat)) 0)
    else none) = some n
  rw [if_pos (by simp [hnat]), String.foldl_eq, hdata, natDigits_foldl n 0]
  simp

/-! ### Data model (src/lib/canvas-item-types.ts)

`CanvasItem` is the placed object.  JavaScript `number` fields are `ℚ`,
`Date` fields are `ℚ` instants, optional payload fields are `Option`s.
The `aspectRatio` field of the source is named `aspectQuotient` here. -/

inductive ItemType where
  | photo | note | memento | color | song | gif | emoji | sticker | decoration
  deriving DecidableEq

inductive TextAlign where
  | left | center | right
  deriving DecidableEq

inductive TextMode where
  | editing | object
  deriving DecidableEq

structure CanvasItem where
  id : String
  type : ItemType
  x : ℚ
  y : ℚ
  width : ℚ
  height : ℚ
  rotation : ℚ
  zIndex : ℚ
  color : Option String := none
  content : Option String := none
  imageUrl : Option String := none
  aspectQuotient : Option ℚ := none
  spotifyTrackId : Option String := none
  gifUrl : Option String := none
  emoji : Option String := none
  stickerUrl : Option String := none
  decorationPreset : Option String := none
  decorationFill : Option String := none
  font : Option String := none
  fontSize : Option ℚ := none
  textColor : Option String := none
  textAlign : Option TextAlign := none
  textBackgroundColor : Option String := none
  textMode : Option TextMode := none
  createdAt : ℚ
  updatedAt : ℚ
  deriving DecidableEq

/-- Argument of `addItem`: `Omit<CanvasItem, 'id' | 'zIndex' | 'createdAt' | 'updatedAt'>`. -/
structure NewItemPayload where
  type : ItemType
  x : ℚ
  y : ℚ
  width : ℚ
  height : ℚ
  rotation : ℚ
  color : Option String := none
  content : Option String := none
  imageUrl : Option String := none
  aspectQuotient : Option ℚ := none
  spotifyTrackId : Option String := none
  gifUrl : Option String := none
  emoji : Option String := none
  stickerUrl : Option String := none
  decorationPreset : Option String := none
  decorationFill : Option String := none
  font : Option String := none
  fontSize : Option ℚ := none
  textColor : Option String := none
  textAlign : Option TextAlign := none
  textBackgroundColor : Option String := none
  textMode : Option TextMode := none
  deriving DecidableEq

/-- Argument of `updateItem`: `Partial<CanvasItem>`; `none` means the field
is absent from the update object. -/
structure ItemUpdates where
  x : Option ℚ := none
  y : Option ℚ := none
  width : Option ℚ := none
  height : Option ℚ := none
  rotation : Option ℚ := none
  zIndex : Option ℚ := none
  color : Option String := none
  content : Option String := none
  imageUrl : Option String := none
  deriving DecidableEq

/-- The spread `{ ...item, ...updates }` for the fields carried by `ItemUpdates`. -/
def applyUpdates (item : CanvasItem) (u : ItemUpdates) : CanvasItem :=
  { item with
    x := u.x.getD item.x
    y := u.y.getD item.y
    width := u.width.getD item.width
    height := u.height.getD item.height
    rotation := u.rotation.getD item.rotation
    zIndex := u.zIndex.getD item.zIndex
    color := match u.color with | some c => some c | none => item.color
    content := match u.content with | some c => some c | none => item.content
    imageUrl := match u.imageUrl with | some c => some c | none => item.imageUrl }

/-- State held by the `useCanvasItems` hook: the item list plus the
selected id (`string | null`). -/
structure CollectionState where
  items : List CanvasItem
  selectedId : Option String
  deriving DecidableEq

/-! ### Collection operations (src/hooks/useCanvasItems.ts) -/

/-- `parseInt(item.id) || 0`; agrees with `parseInt` on the canonical
decimal ids allocated by `getNextId` (`"1"`, `"2"`, ...). -/
def jsParseIntOr0 (s : String) : ℕ :=
  (s.toNat?).getD 0

/-- `getNextId` (useCanvasItems.ts lines 49-53). -/
def getNextId (items : List CanvasItem) : String :=
  match items.map (fun item => jsParseIntOr0 item.id) with
  | [] => "1"
  | v :: vs => toString (foldMax v vs + 1)

/-- `getNextZIndex` (lines 56-59). -/
def getNextZIndex (items : List CanvasItem) : ℚ :=
  match items.map (fun item => item.zIndex) with
  | [] => 1
  | z :: zs => foldMax z zs + 1

/-- `getDecorationZIndex` (lines 62-69). -/
def getDecorationZIndex (items : List CanvasItem) : ℚ :=
  let nonDecorationItems := items.filter fun item => decide (item.type ≠ ItemType.decoration)
  match nonDecorationItems.map (fun item => item.zIndex) with
  | [] => 0
  | z :: zs => max 0 (foldMin z zs - 1)

/-- `handleDrag` (lines 72-84): update `x`, `y`, `updatedAt` of the item
with the given id. -/
def handleDrag (id : String) (x y : ℚ) (now : ℚ) (prev : List CanvasItem) : List CanvasItem :=
  prev.map fun item =>
    if item.id = id then { item with x := x, y := y, updatedAt := now } else item

/-- `handleRotate` (lines 87-99). -/
def handleRotate (id : String) (rotation : ℚ) (now : ℚ) (prev : List CanvasItem) : List CanvasItem :=
  prev.map fun item =>
    if item.id = id then { item with rotation := rotation, updatedAt := now } else item

/-- `updateItem` (lines 176-188). -/
def updateItem (id : String) (updates : ItemUpdates) (now : ℚ) (prev : List CanvasItem) : List CanvasItem :=
  prev.map fun item =>
    if item.id = id then { applyUpdates item updates with updatedAt := now } else item

/-- `handleResize` (lines 191-219): resize keeping the center fixed. -/
def handleResize (id : String) (width height : ℚ) (now : ℚ) (prev : List CanvasItem) : List CanvasItem :=
  prev.map fun item =>
    if item.id = id then
      let centerX := item.x + item.width / 2
      let centerY := item.y + item.height / 2
      { item with
        x := centerX - width / 2
        y := centerY - height / 2
        width := width
        height := height
        updatedAt := now }
    else item

/-- `itemsOverlap` (lines 222-235): axis-aligned bounding-box test. -/
def itemsOverlap (item1 item2 : CanvasItem) : Bool :=
  let item1Right := item1.x + item1.width
  let item1Bottom := item1.y + item1.height
  let item2Right := item2.x + item2.width
  let item2Bottom := item2.y + item2.height
  !(decide (item1Right < item2.x) || decide (item1.x > item2Right) ||
    decide (item1Bottom < item2.y) || decide (item1.y > item2Bottom))

/-- Ascending comparator `(a, b) => a.zIndex - b.zIndex` of `Array.sort`
(stable), as a `mergeSort` order. -/
def zAsc (a b : CanvasItem) : Bool := decide (a.zIndex ≤ b.zIndex)

/-- Descending comparator `(a, b) => b.zIndex - a.zIndex`. -/
def zDesc (a b : CanvasItem) : Bool := decide (b.zIndex ≤ a.zIndex)

/-- `handleMoveUp` (lines 238-307): bring forward relative to overlapping
items of the same layering class. -/
def handleMoveUp (id : String) (now : ℚ) (prev : List CanvasItem) : List CanvasItem :=
  match prev.find? (fun i => decide (i.id = id)) with
  | none => prev
  | some item =>
    if item.type = ItemType.decoration then
      let overlappingDecorations :=
        ((prev.filter fun i =>
            decide (i.type = ItemType.decoration) && decide (i.id ≠ id) && itemsOverlap item i).filter
          (fun i => decide (item.zIndex < i.zIndex))).mergeSort zAsc
      match overlappingDecorations with
      | [] =>
        let allDecorations :=
          (prev.filter fun i => decide (i.type = ItemType.decoration)).mergeSort zAsc
        let maxZIndex :=
          match allDecorations.map (fun i => i.zIndex) with
          | [] => item.zIndex
          | z :: zs => foldMax z zs
        if maxZIndex ≤ item.zIndex then prev
        else
          prev.map fun i =>
            if i.id = id then { i with zIndex := maxZIndex + 1, updatedAt := now } else i
      | lowestOverlapping :: _ =>
        prev.map fun i =>
          if i.id = id then { i with zIndex := lowestOverlapping.zIndex + 1, updatedAt := now } else i
    else
      let overlappingItems :=
        ((prev.filter fun i =>
            decide (i.type ≠ ItemType.decoration) && decide (i.id ≠ id) && itemsOverlap item i).filter
          (fun i => decide (item.zIndex < i.zIndex))).mergeSort zAsc
      match overlappingItems with
      | [] =>
        let allNonDecorations := prev.filter fun i => decide (i.type ≠ ItemType.decoration)
        let maxZIndex :=
          match allNonDecorations.map (fun i => i.zIndex) with
          | [] => item.zIndex
          | z :: zs => foldMax z zs
        if maxZIndex ≤ item.zIndex then prev
        else
          prev.map fun i =>
            if i.id = id then { i with zIndex := maxZIndex + 1, updatedAt := now } else i
      | lowestOverlapping :: _ =>
        prev.map fun i =>
          if i.id = id then { i with zIndex := lowestOverlapping.zIndex + 1, updatedAt := now } else i

/-- `handleMoveDown` (lines 310-386): send backward relative to
overlapping items of the same layering class. -/
def handleMoveDown (id : String) (now : ℚ) (prev : List CanvasItem) : List CanvasItem :=
  match prev.find? (fun i => decide (i.id = id)) with
  | none => prev
  | some item =>
    if item.type = ItemType.decoration then
      let overlappingDecorations :=
        ((prev.filter fun i =>
            decide (i.type = ItemType.decoration) && decide (i.id ≠ id) && itemsOverlap item i).filter
          (fun i => decide (i.zIndex < item.zIndex))).mergeSort zDesc
      match overlappingDecorations with
      | [] =>
        let allDecorations :=
          (prev.filter fun i => decide (i.type = ItemType.decoration)).mergeSort zAsc
        let minZIndex :=
          match allDecorations.map (fun i => i.zIndex) with
          | [] => item.zIndex
          | z :: zs => foldMin z zs
        if item.zIndex ≤ minZIndex then prev
        else
          prev.map fun i =>
            if i.id = id then { i with zIndex := max 0 (minZIndex - 1), updatedAt := now } else i
      | highestOverlapping :: _ =>
        prev.map fun i =>
          if i.id = id then
            { i with zIndex := max 0 (highestOverlapping.zIndex - 1), updatedAt := now }
          else i
    else
      let overlappingItems :=
        ((prev.filter fun i =>
            decide (i.type ≠ ItemType.decoration) && decide (i.id ≠ id) && itemsOverlap item i).filter
          (fun i => decide (i.zIndex < item.zIndex))).mergeSort zDesc
      match overlappingItems with
      | [] =>
        let allNonDecorations := prev.filter fun i => decide (i.type ≠ ItemType.decoration)
        let minZIndex :=
          match allNonDecorations.map (fun i => i.zIndex) with
          | [] => item.zIndex
          | z :: zs => foldMin z zs
        if item.zIndex ≤ minZIndex then prev
        else
          let decorationMaxZIndex :=
            match (prev.filter fun i => decide (i.type = ItemType.decoration)).map
                (fun i => i.zIndex) with
            | [] => 0
            | z :: zs => foldMax z zs
          let targetZIndex := max (decorationMaxZIndex + 1) (minZIndex - 1)
          prev.map fun i =>
            if i.id = id then { i with zIndex := targetZIndex, updatedAt := now } else i
      | highestOverlapping :: _ =>
        prev.map fun i =>
          if i.id = id then { i with zIndex := highestOverlapping.zIndex - 1, updatedAt := now }
          else i

/-! State-level operations, reflecting which handlers touch the selection
(`setSelectedId`) in the hook. -/

/-- `handleSelect` (lines 102-108): selection only, no z-index change. -/
def handleSelectS (id : String) (s : CollectionState) : CollectionState :=
  { s with selectedId := some id }

/-- `handleDelete` (lines 111-120): remove the item; clear the selection
if it referenced it. -/
def handleDeleteS (id : String) (s : CollectionState) : CollectionState :=
  { items := s.items.filter fun item => decide (item.id ≠ id)
    selectedId := if s.selectedId = some id then none else s.selectedId }

/-- `addItem` (lines 134-173): allocate id and zIndex, append, select. -/
def addItemS (payload : NewItemPayload) (now : ℚ) (s : CollectionState) : CollectionState :=
  let zIndex :=
    if payload.type = ItemType.decoration then getDecorationZIndex s.items
    else getNextZIndex s.items
  let newItem : CanvasItem :=
    { id := getNextId s.items
      type := payload.type
      x := payload.x
      y := payload.y
      width := payload.width
      height := payload.height
      rotation := payload.rotation
      zIndex := zIndex
      color := payload.color
      content := payload.content
      imageUrl := payload.imageUrl
      aspectQuotient := payload.aspectQuotient
      spotifyTrackId := payload.spotifyTrackId
      gifUrl := payload.gifUrl
      emoji := payload.emoji
      stickerUrl := payload.stickerUrl
      decorationPreset := payload.decorationPreset
      decorationFill := payload.decorationFill
      font := payload.font
      fontSize := payload.fontSize
      textColor := payload.textColor
      textAlign := payload.textAlign
      textBackgroundColor := payload.textBackgroundColor
      textMode := payload.textMode
      createdAt := now
      updatedAt := now }
  { items := s.items ++ [newItem], selectedId := some newItem.id }

/-- `handleDrag` at hook level: only `setItems` is called. -/
def handleDragS (id : String) (x y : ℚ) (now : ℚ) (s : CollectionState) : CollectionState :=
  { s with items := handleDrag id x y now s.items }

/-- `handleRotate` at hook level. -/
def handleRotateS (id : String) (rotation : ℚ) (now : ℚ) (s : CollectionState) : CollectionState :=
  { s with items := handleRotate id rotation now s.items }

/-- `updateItem` at hook level. -/
def updateItemS (id : String) (updates : ItemUpdates) (now : ℚ) (s : CollectionState) : CollectionState :=
  { s with items := updateItem id updates now s.items }

/-- `handleResize` at hook level. -/
def handleResizeS (id : String) (width height : ℚ) (now : ℚ) (s : CollectionState) : CollectionState :=
  { s with items := handleResize id width height now s.items }

/-- `handleMoveUp` at hook level. -/
def handleMoveUpS (id : String) (now : ℚ) (s : CollectionState) : CollectionState :=
  { s with items := handleMoveUp id now s.items }

/-- `handleMoveDown` at hook level. -/
def handleMoveDownS (id : String) (now : ℚ) (s : CollectionState) : CollectionState :=
  { s with items := handleMoveDown id now s.items }

/-! ### Viewport culling (src/components/CanvasWithItems.tsx lines 184-217) -/

/-- Camera state pushed by the pan/zoom collaborator. -/
structure CanvasTransform where
  scale : ℚ
  positionX : ℚ
  positionY : ℚ
  deriving DecidableEq

/-- The `visibleItems` memo: keep the selected item, plus every item whose
bounding box meets the viewport bounds expanded by a 200-unit padding. -/
def visibleItems (items : List CanvasItem) (selectedId : Option String)
    (tf : CanvasTransform) (innerWidth innerHeight : ℚ) : List CanvasItem :=
  let lb := -tf.positionX / tf.scale
  let rb := (innerWidth - tf.positionX) / tf.scale
  let tb := -tf.positionY / tf.scale
  let bb := (innerHeight - tf.positionY) / tf.scale
  let padding : ℚ := 200
  let pLeft := lb - padding
  let pRight := rb + padding
  let pTop := tb - padding
  let pBottom := bb + padding
  items.filter fun item =>
    if selectedId = some item.id then true
    else
      let itemRight := item.x + item.width
      let itemBottom := item.y + item.height
      !(decide (itemRight < pLeft) || decide (item.x > pRight) ||
        decide (itemBottom < pTop) || decide (item.y > pBottom))

/-! ### Pointer interaction (src/components/DraggableItem.tsx)

Screen geometry is over `ℝ` (the code uses `Math.sqrt` and `Math.atan2`).
`RItem` carries the `CanvasItem` fields the interaction engine reads and
writes (`x`, `y`, `rotation`, `updatedAt`); `rHandleDrag` / `rHandleRotate`
are the `onDrag` / `onRotate` callbacks, i.e. the hook's `handleDrag` and
`handleRotate` at this scalar type. -/

/-- Result of `checkCornerType` (lines 668-701): `'rotate' | 'drag' | null`. -/
inductive CornerType where
  | rotate | drag
  deriving DecidableEq

/-- The `getBoundingClientRect()` of the item's DOM element, in screen
coordinates. -/
structure DOMRect where
  left : ℝ
  top : ℝ
  width : ℝ
  height : ℝ

/-- `rect.right` of a DOMRect. -/
def DOMRect.right (r : DOMRect) : ℝ := r.left + r.width

/-- `rect.bottom` of a DOMRect. -/
def DOMRect.bottom (r : DOMRect) : ℝ := r.top + r.height

/-- The four corners checked by `checkCornerType` (lines 682-687), in
source order. -/
def corners (rect : DOMRect) : List (ℝ × ℝ) :=
  [(rect.left, rect.top), (rect.right, rect.top),
   (rect.left, rect.bottom), (rect.right, rect.bottom)]

/-- `Math.atan2 y x` for real arguments (the JS builtin used at lines
724-727 and 812-816); the signed-zero cases of IEEE-754 do not arise in
`ℝ` and are collapsed into the final branch. -/
noncomputable def atan2 (y x : ℝ) : ℝ :=
  if 0 < x then Real.arctan (y / x)
  else if x < 0 ∧ 0 ≤ y then Real.arctan (y / x) + Real.pi
  else if x < 0 ∧ y < 0 then Real.arctan (y / x) - Real.pi
  else if x = 0 ∧ 0 < y then Real.pi / 2
  else if x = 0 ∧ y < 0 then -(Real.pi / 2)
  else 0

/-- `checkCornerType` (lines 668-701): the threshold is `30 / scale`, and
the mouse point is compared against each corner of the bounding rect by
screen-space euclidean distance; `none` models the early `null` return
when `disabled` (or the ref is missing). -/
noncomputable def checkCornerType (mouse : ℝ × ℝ) (rect : DOMRect) (scale : ℝ)
    (disabled : Bool) : Option CornerType :=
  if disabled then none
  else
    let threshold := 30 / scale
    if (corners rect).any (fun corner =>
        decide (Real.sqrt ((mouse.1 - corner.1) ^ 2 + (mouse.2 - corner.2) ^ 2) < threshold)) then
      some CornerType.rotate
    else
      some CornerType.drag

/-- Projection of `CanvasItem` to the fields the pointer engine touches. -/
structure RItem where
  id : String
  x : ℝ
  y : ℝ
  rotation : ℝ
  updatedAt : ℝ

/-- The hook's `handleDrag` as invoked through the `onDrag` callback. -/
def rHandleDrag (id : String) (x y : ℝ) (now : ℝ) (prev : List RItem) : List RItem :=
  prev.map fun item =>
    if item.id = id then { item with x := x, y := y, updatedAt := now } else item

/-- The hook's `handleRotate` as invoked through the `onRotate` callback. -/
def rHandleRotate (id : String) (rotation : ℝ) (now : ℝ) (prev : List RItem) : List RItem :=
  prev.map fun item =>
    if item.id = id then { item with rotation := rotation, updatedAt := now } else item

/-- The component's `dragState` (lines 629-641). -/
structure DragStateM where
  startX : ℝ
  startY : ℝ
  itemStartX : ℝ
  itemStartY : ℝ

/-- The component's `rotateState` (lines 642-647). -/
structure RotateStateM where
  startAngle : ℝ
  startRotation : ℝ
  centerX : ℝ
  centerY : ℝ

/-- Joint state of the collection and one `DraggableItem` instance:
`isDragging` / `isRotating` / `dragState` / `rotateState` are the
component's `useState` cells, `items` / `selectedId` the collection the
callbacks mutate. -/
structure InteractionState where
  items : List RItem
  selectedId : Option String
  isDragging : Bool
  isRotating : Bool
  dragState : Option DragStateM
  rotateState : Option RotateStateM

/-- A pointer event delivered to the component: mouse-down on the item, or
a window mouse-move / mouse-up. -/
inductive MEvent where
  | down (x y : ℝ)
  | move (x y : ℝ)
  | up

/-- `handleMouseDown` (lines 704-755).  The component's `item` prop is the
current collection entry with the component's id; `isSelected` is
`selectedId === item.id`.  The `cornerType === 'rotate'` test sends
everything else (including the unreachable `null`) to the drag branch,
matching the source's `if/else`. -/
noncomputable def handleMouseDownM (itemId : String) (rect : DOMRect) (scale : ℝ)
    (e : ℝ × ℝ) (s : InteractionState) : InteractionState :=
  match s.items.find? (fun i => decide (i.id = itemId)) with
  | none => s
  | some item =>
    let cornerType := checkCornerType e rect scale false
    if cornerType = some CornerType.rotate then
      let s1 := if s.selectedId = some itemId then s
                else { s with selectedId := some itemId }
      let centerX := rect.left + rect.width / 2
      let centerY := rect.top + rect.height / 2
      let startAngle := atan2 (e.2 - centerY) (e.1 - centerX)
      { s1 with
        isRotating := true
        rotateState := some
          { startAngle := startAngle
            startRotation := item.rotation
            centerX := centerX
            centerY := centerY } }
    else
      let s1 := if s.selectedId = some itemId then s
                else { s with selectedId := some itemId }
      { s1 with
        dragState := some
          { startX := e.1
            startY := e.2
            itemStartX := item.x
            itemStartY := item.y } }

/-- The window `mousemove` listener (lines 775-827).  When the drag
threshold is first exceeded only `setIsDragging(true)` takes effect for
this event: the subsequent `if (isDragging && dragState)` still reads the
closure's old `isDragging`, so no `onDrag` fires until the next event. -/
noncomputable def mouseMoveM (itemId : String) (scale : ℝ) (now : ℝ) (e : ℝ × ℝ)
    (s : InteractionState) : InteractionState :=
  if s.dragState.isSome ∧ s.isDragging = false ∧ s.isRotating = false then
    match s.dragState with
    | none => s
    | some ds =>
      let deltaX := |e.1 - ds.startX|
      let deltaY := |e.2 - ds.startY|
      if deltaX > 5 ∨ deltaY > 5 then { s with isDragging := true }
      else s
  else if s.isDragging = true ∧ s.dragState.isSome then
    match s.dragState with
    | none => s
    | some ds =>
      let deltaX := (e.1 - ds.startX) / scale
      let deltaY := (e.2 - ds.startY) / scale
      let newX := ds.itemStartX + deltaX
      let newY := ds.itemStartY + deltaY
      { s with items := rHandleDrag itemId newX newY now s.items }
  else if s.isRotating = true ∧ s.rotateState.isSome then
    match s.rotateState with
    | none => s
    | some rs =>
      let deltaAngle := atan2 (e.2 - rs.centerY) (e.1 - rs.centerX) - rs.startAngle
      let newRotation := rs.startRotation + deltaAngle * 180 / Real.pi
      { s with items := rHandleRotate itemId newRotation now s.items }
  else s

/-- The window `mouseup` listener (lines 829-840): a down that never
became a drag or rotate keeps the flags (a plain click); otherwise both
flags reset; the transient states are cleared in every case. -/
def mouseUpM (s : InteractionState) : InteractionState :=
  let s1 :=
    if s.dragState.isSome ∧ s.isDragging = false ∧ s.isRotating = false then s
    else { s with isDragging := false, isRotating := false }
  { s1 with dragState := none, rotateState := none }

/-- One delivered event. -/
noncomputable def mstep (itemId : String) (rect : DOMRect) (scale : ℝ) (now : ℝ)
    (s : InteractionState) (e : MEvent) : InteractionState :=
  match e with
  | MEvent.down x y => handleMouseDownM itemId rect scale (x, y) s
  | MEvent.move x y => mouseMoveM itemId scale now (x, y) s
  | MEvent.up => mouseUpM s

/-- A trace of delivered events. -/
noncomputable def mrun (itemId : String) (rect : DOMRect) (scale : ℝ) (now : ℝ)
    (s : InteractionState) (es : List MEvent) : InteractionState :=
  es.foldl (mstep itemId rect scale now) s

/-! ### Shared lemmas -/

theorem map_eq_self_of {α : Type} (l : List α) (f : α → α) (h : ∀ a ∈ l, f a = a) :
    l.map f = l := by
  induction l with
  | nil => rfl
  | cons a as ih =>
    simp only [List.map_cons, h a (List.mem_cons_self a as)]
    rw [ih fun b hb => h b (List.mem_cons_of_mem a hb)]

theorem foldMax_is_ub {α : Type} [LinearOrder α] {x y : α} {l : List α}
    (h : y ∈ x :: l) : y ≤ foldMax x l := by
  rcases List.mem_cons.1 h with rfl | h
  · exact le_foldMax _ _
  · exact le_foldMax_of_mem h

theorem foldMin_is_lb {α : Type} [LinearOrder α] {x y : α} {l : List α}
    (h : y ∈ x :: l) : foldMin x l ≤ y := by
  rcases List.mem_cons.1 h with rfl | h
  · exact foldMin_le _ _
  · exact foldMin_le_of_mem h

theorem foldMax_mem_cons {α : Type} [LinearOrder α] (x : α) (l : List α) :
    foldMax x l ∈ x :: l := by
  rcases foldMax_mem x l with h | h
  · rw [h]; exact List.mem_cons_self x l
  · exact List.mem_cons_of_mem x h

theorem foldMin_mem_cons {α : Type} [LinearOrder α] (x : α) (l : List α) :
    foldMin x l ∈ x :: l := by
  rcases foldMin_mem x l with h | h
  · rw [h]; exact List.mem_cons_self x l
  · exact List.mem_cons_of_mem x h

/-- The head of a `zAsc` merge-sort is an element of minimal `zIndex`. -/
theorem mergeSort_zAsc_head_min {l : List CanvasItem} {a : CanvasItem} {rest : List CanvasItem}
    (h : l.mergeSort zAsc = a :: rest) :
    a ∈ l ∧ ∀ j ∈ l, a.zIndex ≤ j.zIndex := by
  have hmem : a ∈ l := by
    have : a ∈ l.mergeSort zAsc := by rw [h]; exact List.mem_cons_self a rest
    exact List.mem_mergeSort.1 this
  refine ⟨hmem, fun j hj => ?_⟩
  have hjs : j ∈ l.mergeSort zAsc := List.mem_mergeSort.2 hj
  rw [h] at hjs
  rcases List.mem_cons.1 hjs with rfl | hjs
  · exact le_rfl
  · have hsorted := @List.sorted_mergeSort CanvasItem zAsc
      (fun a b c hab hbc => by
        simp only [zAsc, decide_eq_true_eq] at hab hbc ⊢
        exact le_trans hab hbc)
      (fun a b => by
        simp only [zAsc, Bool.or_eq_true, decide_eq_true_eq]
        exact le_total a.zIndex b.zIndex)
      l
    rw [h] at hsorted
    have := (List.pairwise_cons.1 hsorted).1 j hjs
    simpa [zAsc, decide_eq_true_eq] using this

/-- The head of a `zDesc` merge-sort is an element of maximal `zIndex`. -/
theorem mergeSort_zDesc_head_max {l : List CanvasItem} {a : CanvasItem} {rest : List CanvasItem}
    (h : l.mergeSort zDesc = a :: rest) :
    a ∈ l ∧ ∀ j ∈ l, j.zIndex ≤ a.zIndex := by
  have hmem : a ∈ l := by
    have : a ∈ l.mergeSort zDesc := by rw [h]; exact List.mem_cons_self a rest
    exact List.mem_mergeSort.1 this
  refine ⟨hmem, fun j hj => ?_⟩
  have hjs : j ∈ l.mergeSort zDesc := List.mem_mergeSort.2 hj
  rw [h] at hjs
  rcases List.mem_cons.1 hjs with rfl | hjs
  · exact le_rfl
  · have hsorted := @List.sorted_mergeSort CanvasItem zDesc
      (fun a b c hab hbc => by
        simp only [zDesc, decide_eq_true_eq] at hab hbc ⊢
        exact le_trans hbc hab)
      (fun a b => by
        simp only [zDesc, Bool.or_eq_true, decide_eq_true_eq]
        exact le_total b.zIndex a.zIndex)
      l
    rw [h] at hsorted
    have := (List.pairwise_cons.1 hsorted).1 j hjs
    simpa [zDesc, decide_eq_true_eq] using this

theorem mergeSort_eq_nil_iff {α : Type} {le : α → α → Bool} {l : List α} :
    l.mergeSort le = [] ↔ l = [] := by
  constructor
  · intro h
    have := List.mergeSort_perm l le
    rw [h] at this
    exact (List.Perm.nil_eq this).symm
  · intro h; rw [h]; exact List.mergeSort_nil

/-- C8: for every item and every resize to `(w2, h2)`, the resulting
position keeps the pre-resize center fixed:
`x2 + w2/2 = x + w/2` and `y2 + h2/2 = y + h/2` (exact over `ℚ`, which is
the floating-point-tolerance statement made exact); items whose id does
not match are untouched. -/
theorem C8_resize_center_fixed (items : List CanvasItem) (id : String)
    (w2 h2 now : ℚ) (k : ℕ) (old : CanvasItem) (hold : items[k]? = some old) :
    ∃ new, (handleResize id w2 h2 now items)[k]? = some new ∧
      (old.id = id →
        new.x + w2 / 2 = old.x + old.width / 2 ∧
        new.y + h2 / 2 = old.y + old.height / 2 ∧
        new.width = w2 ∧ new.height = h2) ∧
      (old.id ≠ id → new = old) := by
  have hres : (handleResize id w2 h2 now items)[k]? =
      some (if old.id = id then
        { old with
          x := old.x + old.width / 2 - w2 / 2
          y := old.y + old.height / 2 - h2 / 2
          width := w2
          height := h2
          updatedAt := now }
      else old) := by
    rw [handleResize, List.getElem?_map, hold]
    rfl
  refine ⟨_, hres, ?_, ?_⟩
  · intro hid
    rw [if_pos hid]
    refine ⟨?_, ?_, rfl, rfl⟩
    · show old.x + old.width / 2 - w2 / 2 + w2 / 2 = old.x + old.width / 2
      ring
    · show old.y + old.height / 2 - h2 / 2 + h2 / 2 = old.y + old.height / 2
      ring
  · intro hid
    rw [if_neg hid]

/-- Witness for C8 at a concrete collection: the item `"1"` at
`(x, y, w, h) = (0, 0, 10, 20)` resized to `4 × 6`. -/
theorem C8_resize_center_fixed_witness :
    ∃ new,
      (handleResize "1" 4 6 7
        [{ id := "1", type := ItemType.photo, x := 0, y := 0, width := 10, height := 20,
           rotation := 0, zIndex := 1, createdAt := 0, updatedAt := 0 }])[0]? = some new ∧
      (("1" : String) = "1" →
        new.x + 4 / 2 = 0 + 10 / 2 ∧
        new.y + 6 / 2 = 0 + 20 / 2 ∧
        new.width = 4 ∧ new.height = 6) ∧
      (("1" : String) ≠ "1" → new =
        { id := "1", type := ItemType.photo, x := 0, y := 0, width := 10, height := 20,
          rotation := 0, zIndex := 1, createdAt := 0, updatedAt := 0 }) := by
  exact C8_resize_center_fixed
    [{ id := "1", type := ItemType.photo, x := 0, y := 0, width := 10, height := 20,
       rotation := 0, zIndex := 1, createdAt := 0, updatedAt := 0 }] "1" 4 6 7 0 _ rfl

/-- C10: `handleDrag` changes only `x`, `y`, `updatedAt` of the item with
the given id and `handleRotate` only `rotation`, `updatedAt`; the record
updates in the conclusion leave every other field of the target, every
other item, the list length and the selected id untouched. -/
theorem C10_drag_rotate_frame (s : CollectionState) (id : String) (x y r now : ℚ)
    (k : ℕ) (old : CanvasItem) (hold : s.items[k]? = some old) :
    (handleDragS id x y now s).selectedId = s.selectedId ∧
    (handleRotateS id r now s).selectedId = s.selectedId ∧
    (handleDragS id x y now s).items.length = s.items.length ∧
    (handleRotateS id r now s).items.length = s.items.length ∧
    (handleDragS id x y now s).items[k]? =
      some (if old.id = id then { old with x := x, y := y, updatedAt := now } else old) ∧
    (handleRotateS id r now s).items[k]? =
      some (if old.id = id then { old with rotation := r, updatedAt := now } else old) := by
  refine ⟨rfl, rfl, ?_, ?_, ?_, ?_⟩
  · simp [handleDragS, handleDrag]
  · simp [handleRotateS, handleRotate]
  · show (handleDrag id x y now s.items)[k]? = _
    rw [handleDrag, List.getElem?_map, hold]
    rfl
  · show (handleRotate id r now s.items)[k]? = _
    rw [handleRotate, List.getElem?_map, hold]
    rfl

/-- C7: every operation aimed at an id absent from the collection — drag,
rotate, resize, updateItem, delete, move up, move down — is a silent
no-op on the items and the selection (the operations are total functions,
so no error can be raised); for delete this uses the selection invariant
that a non-null `selectedId` references a present item. -/
theorem C7_missing_id_noop (s : CollectionState) (id : String) (x y r w h now : ℚ)
    (u : ItemUpdates)
    (habs : ∀ i ∈ s.items, i.id ≠ id)
    (hsel : s.selectedId = none ∨ ∃ i ∈ s.items, s.selectedId = some i.id) :
    handleDragS id x y now s = s ∧
    handleRotateS id r now s = s ∧
    handleResizeS id w h now s = s ∧
    updateItemS id u now s = s ∧
    handleDeleteS id s = s ∧
    handleMoveUpS id now s = s ∧
    handleMoveDownS id now s = s := by
  have hmapDrag : handleDrag id x y now s.items = s.items :=
    map_eq_self_of _ _ fun i hi => if_neg (habs i hi)
  have hmapRot : handleRotate id r now s.items = s.items :=
    map_eq_self_of _ _ fun i hi => if_neg (habs i hi)
  have hmapRes : handleResize id w h now s.items = s.items :=
    map_eq_self_of _ _ fun i hi => if_neg (habs i hi)
  have hmapUpd : updateItem id u now s.items = s.items :=
    map_eq_self_of _ _ fun i hi => if_neg (habs i hi)
  have hfind : s.items.find? (fun i => decide (i.id = id)) = none :=
    List.find?_eq_none.2 fun i hi => by
      simp only [decide_eq_true_eq]
      exact habs i hi
  have hselne : ¬ s.selectedId = some id := by
    rcases hsel with hnone | ⟨i, hi, hsome⟩
    · rw [hnone]; exact fun hcontra => Option.noConfusion hcontra
    · rw [hsome]
      intro hcontra
      exact habs i hi (Option.some.inj hcontra)
  refine ⟨?_, ?_, ?_, ?_, ?_, ?_, ?_⟩
  · show { s with items := handleDrag id x y now s.items } = s
    rw [hmapDrag]
  · show { s with items := handleRotate id r now s.items } = s
    rw [hmapRot]
  · show { s with items := handleResize id w h now s.items } = s
    rw [hmapRes]
  · show { s with items := updateItem id u now s.items } = s
    rw [hmapUpd]
  · show (⟨s.items.filter fun item => decide (item.id ≠ id),
      if s.selectedId = some id then none else s.selectedId⟩ : CollectionState) = s
    rw [List.filter_eq_self.2 fun i hi => by
        simp only [decide_eq_true_eq]; exact habs i hi,
      if_neg hselne]
  · show { s with items := handleMoveUp id now s.items } = s
    rw [handleMoveUp, hfind]
  · show { s with items := handleMoveDown id now s.items } = s
    rw [handleMoveDown, hfind]

/-- A concrete item used by several witnesses. -/
def demoNote : CanvasItem :=
  { id := "1"
    type := ItemType.note
    x := 0
    y := 0
    width := 5
    height := 5
    rotation := 0
    zIndex := 1
    createdAt := 0
    updatedAt := 0 }

/-- Witness for C10 at the one-item collection `[demoNote]` with the
dragged id `"1"`. -/
theorem C10_drag_rotate_frame_witness :
    (handleDragS "1" 3 4 7 ⟨[demoNote], some "1"⟩).selectedId =
      (⟨[demoNote], some "1"⟩ : CollectionState).selectedId ∧
    (handleRotateS "1" 45 7 ⟨[demoNote], some "1"⟩).selectedId =
      (⟨[demoNote], some "1"⟩ : CollectionState).selectedId ∧
    (handleDragS "1" 3 4 7 ⟨[demoNote], some "1"⟩).items.length =
      (⟨[demoNote], some "1"⟩ : CollectionState).items.length ∧
    (handleRotateS "1" 45 7 ⟨[demoNote], some "1"⟩).items.length =
      (⟨[demoNote], some "1"⟩ : CollectionState).items.length ∧
    (handleDragS "1" 3 4 7 ⟨[demoNote], some "1"⟩).items[0]? =
      some (if demoNote.id = "1" then { demoNote with x := 3, y := 4, updatedAt := 7 }
        else demoNote) ∧
    (handleRotateS "1" 45 7 ⟨[demoNote], some "1"⟩).items[0]? =
      some (if demoNote.id = "1" then { demoNote with rotation := 45, updatedAt := 7 }
        else demoNote) :=
  C10_drag_rotate_frame ⟨[demoNote], some "1"⟩ "1" 3 4 45 7 0 demoNote rfl

/-- Witness for C7: the collection `[demoNote]` with the item selected and
operations aimed at the absent id `"7"`. -/
theorem C7_missing_id_noop_witness :
    handleDragS "7" 3 4 9 ⟨[demoNote], some "1"⟩ = ⟨[demoNote], some "1"⟩ ∧
    handleRotateS "7" 45 9 ⟨[demoNote], some "1"⟩ = ⟨[demoNote], some "1"⟩ ∧
    handleResizeS "7" 6 6 9 ⟨[demoNote], some "1"⟩ = ⟨[demoNote], some "1"⟩ ∧
    updateItemS "7" {} 9 ⟨[demoNote], some "1"⟩ = ⟨[demoNote], some "1"⟩ ∧
    handleDeleteS "7" ⟨[demoNote], some "1"⟩ = ⟨[demoNote], some "1"⟩ ∧
    handleMoveUpS "7" 9 ⟨[demoNote], some "1"⟩ = ⟨[demoNote], some "1"⟩ ∧
    handleMoveDownS "7" 9 ⟨[demoNote], some "1"⟩ = ⟨[demoNote], some "1"⟩ :=
  C7_missing_id_noop ⟨[demoNote], some "1"⟩ "7" 3 4 45 6 6 9 {}
    (by
      intro i hi
      rcases List.mem_singleton.1 hi with rfl
      decide)
    (Or.inr ⟨demoNote, List.mem_singleton.2 rfl, rfl⟩)

/-- C6: an item of the collection is in the visible subset iff it is the
selected item or its bounding box intersects the canvas-space viewport
bounds (`left = -positionX/scale`, `right = (innerWidth-positionX)/scale`,
and analogously for top/bottom) expanded by the fixed 200-unit padding;
in particular the selected item is always visible, wherever it is. -/
theorem C6_visible_iff (items : List CanvasItem) (selectedId : Option String)
    (tf : CanvasTransform) (innerWidth innerHeight : ℚ) (hscale : 0 < tf.scale)
    (item : CanvasItem) (hmem : item ∈ items) :
    (item ∈ visibleItems items selectedId tf innerWidth innerHeight ↔
      (selectedId = some item.id ∨
        (-tf.positionX / tf.scale - 200 ≤ item.x + item.width ∧
         item.x ≤ (innerWidth - tf.positionX) / tf.scale + 200 ∧
         -tf.positionY / tf.scale - 200 ≤ item.y + item.height ∧
         item.y ≤ (innerHeight - tf.positionY) / tf.scale + 200))) ∧
    (selectedId = some item.id →
      item ∈ visibleItems items selectedId tf innerWidth innerHeight) := by
  have hiff : item ∈ visibleItems items selectedId tf innerWidth innerHeight ↔
      (selectedId = some item.id ∨
        (-tf.positionX / tf.scale - 200 ≤ item.x + item.width ∧
         item.x ≤ (innerWidth - tf.positionX) / tf.scale + 200 ∧
         -tf.positionY / tf.scale - 200 ≤ item.y + item.height ∧
         item.y ≤ (innerHeight - tf.positionY) / tf.scale + 200)) := by
    rw [visibleItems, List.mem_filter]
    constructor
    · rintro ⟨-, hcond⟩
      by_cases hs : selectedId = some item.id
      · exact Or.inl hs
      · rw [if_neg hs] at hcond
        refine Or.inr ?_
        simp only [Bool.not_eq_eq_eq_not, Bool.not_true, Bool.or_eq_false_iff,
          decide_eq_false_iff_not, not_lt] at hcond
        obtain ⟨⟨⟨h1, h2⟩, h3⟩, h4⟩ := hcond
        exact ⟨by linarith, by linarith, by linarith, by linarith⟩
    · intro hcond
      refine ⟨hmem, ?_⟩
      by_cases hs : selectedId = some item.id
      · rw [if_pos hs]
      · rw [if_neg hs]
        rcases hcond with hs' | ⟨h1, h2, h3, h4⟩
        · exact absurd hs' hs
        · simp only [Bool.not_eq_eq_eq_not, Bool.not_true, Bool.or_eq_false_iff,
            decide_eq_false_iff_not, not_lt]
          exact ⟨⟨⟨by linarith, by linarith⟩, by linarith⟩, by linarith⟩
  exact ⟨hiff, fun hs => hiff.2 (Or.inl hs)⟩

/-- A far-away item used in the culling witness. -/
def demoFar : CanvasItem :=
  { id := "1"
    type := ItemType.photo
    x := 10000
    y := 10000
    width := 10
    height := 10
    rotation := 0
    zIndex := 1
    createdAt := 0
    updatedAt := 0 }

/-- Witness for C6: with camera `scale 1`, offsets `0`, viewport
`800 × 600`, the selected item at `(10000, 10000)` is visible. -/
theorem C6_visible_iff_witness :
    ((demoFar ∈ visibleItems [demoFar] (some "1") ⟨1, 0, 0⟩ 800 600 ↔
      (some "1" = some demoFar.id ∨
        (-(0 : ℚ) / 1 - 200 ≤ demoFar.x + demoFar.width ∧
         demoFar.x ≤ ((800 : ℚ) - 0) / 1 + 200 ∧
         -(0 : ℚ) / 1 - 200 ≤ demoFar.y + demoFar.height ∧
         demoFar.y ≤ ((600 : ℚ) - 0) / 1 + 200))) ∧
      (some "1" = some demoFar.id →
        demoFar ∈ visibleItems [demoFar] (some "1") ⟨1, 0, 0⟩ 800 600)) ∧
    demoFar ∈ visibleItems [demoFar] (some "1") ⟨1, 0, 0⟩ 800 600 := by
  have h := C6_visible_iff [demoFar] (some "1") ⟨1, 0, 0⟩ 800 600 (by norm_num)
    demoFar (List.mem_singleton.2 rfl)
  exact ⟨h, h.2 rfl⟩

/-- C5: adding a decoration-kind payload appends a new item whose zIndex
is the minimum zIndex over non-decoration items minus one, clamped at 0,
and 0 when no non-decoration item exists.  The minimum is characterized
by its two order properties rather than by the code's fold. -/
theorem C5_decoration_zIndex (s : CollectionState) (p : NewItemPayload) (now : ℚ)
    (hp : p.type = ItemType.decoration) :
    ∃ newItem,
      (addItemS p now s).items = s.items ++ [newItem] ∧
      ((s.items.filter fun i => decide (i.type ≠ ItemType.decoration)) = [] →
        newItem.zIndex = 0) ∧
      (∀ m : ℚ,
        (∀ i ∈ s.items.filter fun i => decide (i.type ≠ ItemType.decoration), m ≤ i.zIndex) →
        (∃ i ∈ s.items.filter fun i => decide (i.type ≠ ItemType.decoration), i.zIndex = m) →
        newItem.zIndex = max 0 (m - 1)) := by
  refine ⟨_, rfl, ?_, ?_⟩
  · intro hempty
    show (if p.type = ItemType.decoration then getDecorationZIndex s.items
      else getNextZIndex s.items) = 0
    rw [if_pos hp, getDecorationZIndex]
    rw [hempty]
    rfl
  · intro m hub ⟨i0, hi0, hi0z⟩
    show (if p.type = ItemType.decoration then getDecorationZIndex s.items
      else getNextZIndex s.items) = max 0 (m - 1)
    rw [if_pos hp, getDecorationZIndex]
    rcases hmap : (s.items.filter fun i =>
        decide (i.type ≠ ItemType.decoration)).map (fun item => item.zIndex) with _ | ⟨z, zs⟩
    · rw [List.map_eq_nil_iff] at hmap
      rw [hmap] at hi0
      cases hi0
    · simp only [hmap]
      have hmin_eq : foldMin z zs = m := by
        have hattain : m ∈ z :: zs := by
          rw [← hmap]
          exact List.mem_map.2 ⟨i0, hi0, hi0z⟩
        have h1 : foldMin z zs ≤ m := foldMin_is_lb hattain
        have h2 : m ≤ foldMin z zs := by
          have hmem2 : foldMin z zs ∈ z :: zs := foldMin_mem_cons z zs
          rw [← hmap] at hmem2
          rcases List.mem_map.1 hmem2 with ⟨j, hj, hjz⟩
          rw [← hjz]
          exact hub j hj
        exact le_antisymm h1 h2
      rw [hmin_eq]

/-- A non-decoration item with zIndex 5, for the C5 witness. -/
def demoZFive : CanvasItem :=
  { id := "1"
    type := ItemType.photo
    x := 0
    y := 0
    width := 100
    height := 100
    rotation := 0
    zIndex := 5
    createdAt := 0
    updatedAt := 0 }

/-- A decoration payload shared by several scenarios. -/
def decorationPayload : NewItemPayload :=
  { type := ItemType.decoration
    x := 0
    y := 0
    width := 50
    height := 50
    rotation := 0 }

/-- Witness for C5, realizing the spec scenario: adding a decoration into
a collection whose minimum non-decoration zIndex is 5 yields zIndex
`max 0 (5 - 1) = 4`. -/
theorem C5_decoration_zIndex_witness :
    ∃ newItem,
      (addItemS decorationPayload 7 ⟨[demoZFive], none⟩).items = [demoZFive] ++ [newItem] ∧
      newItem.zIndex = max 0 ((5 : ℚ) - 1) ∧
      newItem.zIndex = 4 := by
  obtain ⟨newItem, happend, -, hmin⟩ :=
    C5_decoration_zIndex ⟨[demoZFive], none⟩ decorationPayload 7 rfl
  have hz : newItem.zIndex = max 0 ((5 : ℚ) - 1) := by
    refine hmin 5 ?_ ?_
    · intro i hi
      have : i ∈ [demoZFive] := List.mem_of_mem_filter hi
      rcases List.mem_singleton.1 this with rfl
      norm_num [demoZFive]
    · refine ⟨demoZFive, ?_, rfl⟩
      rw [List.mem_filter]
      exact ⟨List.mem_singleton.2 rfl, by decide⟩
  exact ⟨newItem, happend, hz, by rw [hz]; norm_num⟩

/-! ### Concrete scenario states for the id and layering claims -/

/-- A photo payload at the origin, 100 × 100. -/
def photoPayload : NewItemPayload :=
  { type := ItemType.photo
    x := 0
    y := 0
    width := 100
    height := 100
    rotation := 0 }

/-- The item produced by the first `addItem photoPayload` on the empty
collection. -/
def item1 : CanvasItem :=
  { id := "1"
    type := ItemType.photo
    x := 0
    y := 0
    width := 100
    height := 100
    rotation := 0
    zIndex := 1
    createdAt := 0
    updatedAt := 0 }

/-- The item produced by the second `addItem photoPayload`. -/
def item2 : CanvasItem :=
  { id := "2"
    type := ItemType.photo
    x := 0
    y := 0
    width := 100
    height := 100
    rotation := 0
    zIndex := 2
    createdAt := 0
    updatedAt := 0 }

theorem jsParseIntOr0_repr (n : ℕ) : jsParseIntOr0 (Nat.repr n) = n := by
  rw [jsParseIntOr0, toNat?_repr]
  rfl

theorem jsParse_one : jsParseIntOr0 "1" = 1 := by
  rw [show ("1" : String) = Nat.repr 1 from by decide]
  exact jsParseIntOr0_repr 1

theorem jsParse_two : jsParseIntOr0 "2" = 2 := by
  rw [show ("2" : String) = Nat.repr 2 from by decide]
  exact jsParseIntOr0_repr 2

theorem addItemS_empty :
    addItemS photoPayload 0 ⟨[], none⟩ = ⟨[item1], some "1"⟩ := rfl

theorem addItemS_one (sel : Option String) :
    addItemS photoPayload 0 ⟨[item1], sel⟩ = ⟨[item1, item2], some "2"⟩ := by
  rw [addItemS]
  simp only [photoPayload, getNextId, getNextZIndex, item1, List.map_cons, List.map_nil,
    jsParse_one, foldMax, List.foldl_nil]
  rw [show toString (1 + 1 : ℕ) = "2" from by decide]
  simp only [CollectionState.mk.injEq, List.cons.injEq, CanvasItem.mk.injEq, item2]
  norm_num
  exact fun hcontra => nomatch hcontra

theorem handleDeleteS_two :
    handleDeleteS "2" ⟨[item1, item2], some "2"⟩ = ⟨[item1], none⟩ := by
  decide

/-- C4 counterexample: starting from the empty collection, two adds
allocate ids `"1"` and `"2"`; after deleting `"2"` the next add allocates
`"2"` again, so an id deleted within the session is reallocated by a
subsequent add, contradicting the claim. -/
theorem C4_id_reuse_counterexample :
    (∃ i ∈ (addItemS photoPayload 0 (addItemS photoPayload 0 ⟨[], none⟩)).items,
      i.id = "2") ∧
    (∀ i ∈ (handleDeleteS "2" (addItemS photoPayload 0
        (addItemS photoPayload 0 ⟨[], none⟩))).items, i.id ≠ "2") ∧
    (∃ i ∈ (addItemS photoPayload 0 (handleDeleteS "2" (addItemS photoPayload 0
        (addItemS photoPayload 0 ⟨[], none⟩)))).items, i.id = "2") := by
  rw [addItemS_empty, addItemS_one, handleDeleteS_two, addItemS_one]
  refine ⟨⟨item2, by decide, rfl⟩, ?_, ⟨item2, by decide, rfl⟩⟩
  intro i hi
  rcases List.mem_singleton.1 hi with rfl
  decide

/-- C4 amended: `add` never allocates an id that is currently present
(the allocated id parses to one more than the maximum numeric value of
the present ids, so collection ids stay pairwise distinct); an id freed
by deletion may however be reallocated, as the counterexample shows. -/
theorem C4_fresh_id_amended (items : List CanvasItem) (i : CanvasItem) (h : i ∈ items) :
    i.id ≠ getNextId items := by
  intro hcontra
  rcases hL : items.map (fun item => jsParseIntOr0 item.id) with _ | ⟨v, vs⟩
  · rw [List.map_eq_nil_iff] at hL
    subst hL
    cases h
  · have hparse_new : jsParseIntOr0 (getNextId items) = foldMax v vs + 1 := by
      rw [getNextId, hL]
      exact jsParseIntOr0_repr _
    have hmem : jsParseIntOr0 i.id ∈ v :: vs := by
      rw [← hL]
      exact List.mem_map.2 ⟨i, h, rfl⟩
    have hle : jsParseIntOr0 i.id ≤ foldMax v vs := foldMax_is_ub hmem
    rw [hcontra, hparse_new] at hle
    omega

/-- Witness for the amended C4: the id `"1"` present in `[demoNote]` is
distinct from the id the next add would allocate. -/
theorem C4_fresh_id_amended_witness : demoNote.id ≠ getNextId [demoNote] :=
  C4_fresh_id_amended [demoNote] demoNote (List.mem_singleton.2 rfl)

/-- The decoration added onto `[item1, item2]`: id `"3"`, zIndex
`max 0 (min 1 2 - 1) = 0`. -/
def dec3 : CanvasItem :=
  { id := "3"
    type := ItemType.decoration
    x := 0
    y := 0
    width := 50
    height := 50
    rotation := 0
    zIndex := 0
    createdAt := 0
    updatedAt := 0 }

/-- `item2` after `handleMoveDown` dropped it just below `item1`. -/
def item2Down : CanvasItem :=
  { item2 with zIndex := 0 }

theorem getNextId_12 : getNextId [item1, item2] = "3" := by
  rw [getNextId]
  simp only [List.map_cons, List.map_nil, item1, item2, jsParse_one, jsParse_two,
    foldMax, List.foldl_cons, List.foldl_nil]
  decide

theorem getDecorationZIndex_12 : getDecorationZIndex [item1, item2] = 0 := by
  have hfil : [item1, item2].filter (fun item => decide (item.type ≠ ItemType.decoration)) =
      [item1, item2] := by
    rw [List.filter_cons, List.filter_cons, List.filter_nil,
      if_pos (show (decide (item1.type ≠ ItemType.decoration)) = true from by decide),
      if_pos (show (decide (item2.type ≠ ItemType.decoration)) = true from by decide)]
  rw [getDecorationZIndex]
  simp [item1, item2, foldMin, min_def]

theorem addItemS_dec :
    addItemS decorationPayload 0 ⟨[item1, item2], some "2"⟩ =
      ⟨[item1, item2, dec3], some "3"⟩ := by
  simp only [addItemS, decorationPayload, getNextId_12, getDecorationZIndex_12]
  simp [dec3]

theorem handleMoveDown_two :
    handleMoveDown "2" 0 [item1, item2, dec3] = [item1, item2Down, dec3] := by
  have hfind : List.find? (fun i => decide (i.id = "2")) [item1, item2, dec3] = some item2 := by
    simp [item1, item2]
  have hovl : itemsOverlap item2 item1 = true := by
    rw [itemsOverlap]
    norm_num [item1, item2]
  have h1 : [item1, item2, dec3].filter
      (fun i => decide (i.type ≠ ItemType.decoration) && decide (i.id ≠ "2") &&
        itemsOverlap item2 i) = [item1] := by
    rw [List.filter_cons, List.filter_cons, List.filter_cons, List.filter_nil]
    rw [if_pos (show (decide (item1.type ≠ ItemType.decoration) && decide (item1.id ≠ "2") &&
        itemsOverlap item2 item1) = true from by rw [hovl]; decide)]
    rw [if_neg (show ¬ ((decide (item2.type ≠ ItemType.decoration) && decide (item2.id ≠ "2") &&
        itemsOverlap item2 item2) = true) from by
      simp [show decide (item2.id ≠ "2") = false from by decide])]
    rw [if_neg (show ¬ ((decide (dec3.type ≠ ItemType.decoration) && decide (dec3.id ≠ "2") &&
        itemsOverlap item2 dec3) = true) from by
      simp [show decide (dec3.type ≠ ItemType.decoration) = false from by decide])]
  have h2 : [item1].filter (fun i => decide (i.zIndex < item2.zIndex)) = [item1] := by
    rw [List.filter_cons, List.filter_nil,
      if_pos (show (decide (item1.zIndex < item2.zIndex)) = true from by
        norm_num [item1, item2])]
  simp only [handleMoveDown, hfind]
  rw [if_neg (show ¬ item2.type = ItemType.decoration from by decide)]
  simp only [h1, h2, List.mergeSort_singleton]
  simp only [List.map_cons, List.map_nil]
  norm_num [item1, item2, dec3, item2Down]
  decide

/-- The claim's layering-class ordering: every decoration's zIndex is
strictly below every non-decoration's (equivalently, when both classes
are non-empty, `max over decorations < min over non-decorations`). -/
def classOrdering (items : List CanvasItem) : Prop :=
  ∀ d ∈ items.filter fun i => decide (i.type = ItemType.decoration),
  ∀ p ∈ items.filter fun i => decide (i.type ≠ ItemType.decoration),
    d.zIndex < p.zIndex

/-- C1 fails on the code: from the empty collection, add two overlapping
photos (zIndex 1 and 2), add a decoration (zIndex 0), then send the
second photo backward; `handleMoveDown` assigns it
`highestOverlapping.zIndex - 1 = 0`, equal to the decoration's zIndex,
so the strict class ordering is violated while both classes are
non-empty. -/
theorem C1_layering_violation :
    ¬ classOrdering (handleMoveDownS "2" 0 (addItemS decorationPayload 0
      (addItemS photoPayload 0 (addItemS photoPayload 0 ⟨[], none⟩)))).items := by
  rw [addItemS_empty, addItemS_one, addItemS_dec]
  show ¬ classOrdering (handleMoveDown "2" 0 [item1, item2, dec3])
  rw [handleMoveDown_two]
  intro h
  have hd : dec3 ∈ [item1, item2Down, dec3].filter
      fun i => decide (i.type = ItemType.decoration) := by
    simp [item1, item2Down, item2, dec3]
  have hp : item2Down ∈ [item1, item2Down, dec3].filter
      fun i => decide (i.type ≠ ItemType.decoration) := by
    simp [item1, item2Down, item2, dec3]
  have := h dec3 hd item2Down hp
  norm_num [dec3, item2Down, item2] at this

/-- `checkCornerType` (enabled case) classifies rotate exactly when some
corner of the bounding rect is within screen distance `30 / scale` of the
mouse point, and drag otherwise. -/
theorem checkCornerType_spec (mouse : ℝ × ℝ) (rect : DOMRect) (scale : ℝ) :
    (checkCornerType mouse rect scale false = some CornerType.rotate ↔
      ∃ corner ∈ corners rect,
        Real.sqrt ((mouse.1 - corner.1) ^ 2 + (mouse.2 - corner.2) ^ 2) < 30 / scale) ∧
    (checkCornerType mouse rect scale false = some CornerType.drag ↔
      ¬ ∃ corner ∈ corners rect,
        Real.sqrt ((mouse.1 - corner.1) ^ 2 + (mouse.2 - corner.2) ^ 2) < 30 / scale) := by
  rw [checkCornerType, if_neg (by decide : ¬ (false = true))]
  by_cases h : ((corners rect).any fun corner =>
      decide (Real.sqrt ((mouse.1 - corner.1) ^ 2 + (mouse.2 - corner.2) ^ 2) < 30 / scale)) = true
  · rw [if_pos h]
    have hex : ∃ corner ∈ corners rect,
        Real.sqrt ((mouse.1 - corner.1) ^ 2 + (mouse.2 - corner.2) ^ 2) < 30 / scale := by
      rcases List.any_eq_true.1 h with ⟨c, hc, hdec⟩
      exact ⟨c, hc, of_decide_eq_true hdec⟩
    constructor
    · exact ⟨fun _ => hex, fun _ => rfl⟩
    · constructor
      · intro hcontra
        exact absurd hcontra (by simp)
      · intro hcontra
        exact absurd hex hcontra
  · rw [if_neg h]
    have hnex : ¬ ∃ corner ∈ corners rect,
        Real.sqrt ((mouse.1 - corner.1) ^ 2 + (mouse.2 - corner.2) ^ 2) < 30 / scale := by
      intro ⟨c, hc, hlt⟩
      exact h (List.any_eq_true.2 ⟨c, hc, decide_eq_true hlt⟩)
    constructor
    · constructor
      · intro hcontra
        exact absurd hcontra (by simp)
      · intro hcontra
        exact absurd hcontra hnex
    · exact ⟨fun _ => hnex, fun _ => rfl⟩

/-- C9 amended: the down-point is classified rotate iff it is within
screen-space distance `30 / scale` — a radius that depends on the camera
scale, shrinking as the user zooms in — of one of the four corners of the
element's screen bounding rect; otherwise drag. -/
theorem C9_corner_classification_amended (mouse : ℝ × ℝ) (rect : DOMRect) (scale : ℝ) :
    (checkCornerType mouse rect scale false = some CornerType.rotate ↔
      ∃ corner ∈ corners rect,
        Real.sqrt ((mouse.1 - corner.1) ^ 2 + (mouse.2 - corner.2) ^ 2) < 30 / scale) ∧
    (checkCornerType mouse rect scale false = some CornerType.drag ↔
      ¬ ∃ corner ∈ corners rect,
        Real.sqrt ((mouse.1 - corner.1) ^ 2 + (mouse.2 - corner.2) ^ 2) < 30 / scale) :=
  checkCornerType_spec mouse rect scale

/-- C9 counterexample: the same screen geometry — mouse at `(120, 0)`,
bounding rect `(0, 0)` to `(100, 100)`, the down-point 20 screen pixels
from the corner `(100, 0)` — is classified rotate at camera scale 1 but
drag at camera scale 2, so the classification radius is not a fixed
screen-space radius independent of the zoom scale. -/
theorem C9_corner_scale_counterexample :
    checkCornerType (120, 0) ⟨0, 0, 100, 100⟩ 1 false = some CornerType.rotate ∧
    checkCornerType (120, 0) ⟨0, 0, 100, 100⟩ 2 false = some CornerType.drag := by
  constructor
  · refine (checkCornerType_spec (120, 0) ⟨0, 0, 100, 100⟩ 1).1.2 ?_
    refine ⟨((⟨0, 0, 100, 100⟩ : DOMRect).right, (⟨0, 0, 100, 100⟩ : DOMRect).top), ?_, ?_⟩
    · rw [corners]
      exact List.mem_cons_of_mem _ (List.mem_cons_self _ _)
    · have harg : (((120, 0) : ℝ × ℝ).1 - (⟨0, 0, 100, 100⟩ : DOMRect).right) ^ 2 +
          (((120, 0) : ℝ × ℝ).2 - (⟨0, 0, 100, 100⟩ : DOMRect).top) ^ 2 = 400 := by
        norm_num [DOMRect.right]
      rw [harg, Real.sqrt_lt' (by norm_num)]
      norm_num
  · refine (checkCornerType_spec (120, 0) ⟨0, 0, 100, 100⟩ 2).2.2 ?_
    rintro ⟨c, hc, hlt⟩
    have h30 : (30 : ℝ) / 2 = 15 := by norm_num
    rw [h30, Real.sqrt_lt' (by norm_num)] at hlt
    simp only [corners, DOMRect.right, DOMRect.bottom, List.mem_cons,
      List.mem_singleton, List.not_mem_nil, or_false] at hc
    rcases hc with rfl | rfl | rfl | rfl <;> norm_num at hlt

/-! ### The reorder-locality claim (C2) -/

/-- Two items are in the same layering class iff both or neither are
decorations. -/
def sameLayeringClass (a b : CanvasItem) : Bool :=
  decide ((a.type = ItemType.decoration) ↔ (b.type = ItemType.decoration))

/-- The claim's neighbor set for `reorder(id, forward)`: other objects of
the target's layering class whose bounding box overlaps the target's and
whose `zIndex` is strictly greater. -/
def overlapAbove (prev : List CanvasItem) (item : CanvasItem) : List CanvasItem :=
  prev.filter fun i =>
    sameLayeringClass i item && decide (i.id ≠ item.id) && itemsOverlap item i &&
      decide (item.zIndex < i.zIndex)

/-- All members of the target's layering class (the target included). -/
def classItems (prev : List CanvasItem) (item : CanvasItem) : List CanvasItem :=
  prev.filter fun i => sameLayeringClass i item

/-- C2: `reorder(id, forward)` (`handleMoveUp`).  If some other object of
the target's layering class overlaps it with strictly greater zIndex, the
target's zIndex becomes (smallest such zIndex) + 1; if none exists it
becomes (max zIndex of the class) + 1 unless the target already holds
that max, in which case the collection is unchanged; in particular,
reordering the only member of its class is a no-op. -/
theorem C2_moveUp_reorder_locality (prev : List CanvasItem) (id : String) (now : ℚ)
    (item : CanvasItem)
    (hfind : prev.find? (fun i => decide (i.id = id)) = some item) :
    (overlapAbove prev item ≠ [] →
      ∃ m, (∃ j ∈ overlapAbove prev item, j.zIndex = m) ∧
        (∀ j ∈ overlapAbove prev item, m ≤ j.zIndex) ∧
        handleMoveUp id now prev =
          prev.map fun i =>
            if i.id = id then { i with zIndex := m + 1, updatedAt := now } else i) ∧
    (overlapAbove prev item = [] →
      ∃ M, (∃ j ∈ classItems prev item, j.zIndex = M) ∧
        (∀ j ∈ classItems prev item, j.zIndex ≤ M) ∧
        (item.zIndex = M → handleMoveUp id now prev = prev) ∧
        (item.zIndex ≠ M →
          handleMoveUp id now prev =
            prev.map fun i =>
              if i.id = id then { i with zIndex := M + 1, updatedAt := now } else i)) ∧
    (classItems prev item = [item] → handleMoveUp id now prev = prev) := by
  have hid : item.id = id := by
    have h := List.find?_some hfind
    simpa using h
  have hmem : item ∈ prev := List.mem_of_find?_eq_some hfind
  have honly_of : ∀ main2 : (overlapAbove prev item = [] →
      ∃ M, (∃ j ∈ classItems prev item, j.zIndex = M) ∧
        (∀ j ∈ classItems prev item, j.zIndex ≤ M) ∧
        (item.zIndex = M → handleMoveUp id now prev = prev) ∧
        (item.zIndex ≠ M →
          handleMoveUp id now prev =
            prev.map fun i =>
              if i.id = id then { i with zIndex := M + 1, updatedAt := now } else i)),
      classItems prev item = [item] → handleMoveUp id now prev = prev := by
    intro main2 honly
    have hFnil : overlapAbove prev item = [] := by
      by_contra hne
      obtain ⟨j, hj⟩ := List.exists_mem_of_ne_nil _ hne
      obtain ⟨hjp, hjb⟩ := List.mem_filter.1 hj
      simp only [Bool.and_eq_true, decide_eq_true_eq] at hjb
      have hjC : j ∈ classItems prev item :=
        List.mem_filter.2 ⟨hjp, hjb.1.1.1⟩
      rw [honly] at hjC
      rcases List.mem_singleton.1 hjC with rfl
      exact hjb.1.1.2 rfl
    obtain ⟨M, hat, -, hMeq, -⟩ := main2 hFnil
    refine hMeq ?_
    rcases hat with ⟨j, hjC, hjz⟩
    rw [honly] at hjC
    rcases List.mem_singleton.1 hjC with rfl
    exact hjz
  by_cases hdec : item.type = ItemType.decoration
  · have hclassB : ∀ i, sameLayeringClass i item = decide (i.type = ItemType.decoration) := by
      intro i
      simp [sameLayeringClass, hdec]
    have hFo : (prev.filter fun i =>
        decide (i.type = ItemType.decoration) && decide (i.id ≠ id) && itemsOverlap item i).filter
          (fun i => decide (item.zIndex < i.zIndex)) = overlapAbove prev item := by
      rw [List.filter_filter, overlapAbove]
      refine List.filter_congr fun i _ => ?_
      rw [hclassB i, hid, Bool.and_comm]
    have hCeq : prev.filter (fun i => decide (i.type = ItemType.decoration)) =
        classItems prev item := by
      rw [classItems]
      exact List.filter_congr fun i _ => (hclassB i).symm
    rcases hs : ((prev.filter fun i =>
        decide (i.type = ItemType.decoration) && decide (i.id ≠ id) && itemsOverlap item i).filter
          (fun i => decide (item.zIndex < i.zIndex))).mergeSort zAsc with _ | ⟨low, rest⟩
    · have hFnil : overlapAbove prev item = [] := by
        rw [← hFo]
        exact mergeSort_eq_nil_iff.1 hs
      have hitemC : item ∈ prev.filter (fun i => decide (i.type = ItemType.decoration)) :=
        List.mem_filter.2 ⟨hmem, by simp [hdec]⟩
      rcases hmz : (((prev.filter fun i =>
          decide (i.type = ItemType.decoration)).mergeSort zAsc).map fun i => i.zIndex)
          with _ | ⟨z0, zs0⟩
      · exfalso
        have hin : item ∈ (prev.filter fun i =>
            decide (i.type = ItemType.decoration)).mergeSort zAsc :=
          List.mem_mergeSort.2 hitemC
        rw [List.map_eq_nil_iff.1 hmz] at hin
        exact absurd hin (List.not_mem_nil item)
      · have hub : ∀ j ∈ classItems prev item, j.zIndex ≤ foldMax z0 zs0 := by
          intro j hj
          rw [← hCeq] at hj
          have hjz : j.zIndex ∈ z0 :: zs0 := by
            rw [← hmz]
            exact List.mem_map.2 ⟨j, List.mem_mergeSort.2 hj, rfl⟩
          exact foldMax_is_ub hjz
        have hat : ∃ j ∈ classItems prev item, j.zIndex = foldMax z0 zs0 := by
          have hmm : foldMax z0 zs0 ∈ z0 :: zs0 := foldMax_mem_cons z0 zs0
          rw [← hmz] at hmm
          rcases List.mem_map.1 hmm with ⟨j, hj, hjz⟩
          exact ⟨j, by rw [← hCeq]; exact List.mem_mergeSort.1 hj, hjz⟩
        have main2 : overlapAbove prev item = [] →
            ∃ M, (∃ j ∈ classItems prev item, j.zIndex = M) ∧
              (∀ j ∈ classItems prev item, j.zIndex ≤ M) ∧
              (item.zIndex = M → handleMoveUp id now prev = prev) ∧
              (item.zIndex ≠ M →
                handleMoveUp id now prev =
                  prev.map fun i =>
                    if i.id = id then { i with zIndex := M + 1, updatedAt := now } else i) := by
          intro _
          refine ⟨foldMax z0 zs0, hat, hub, ?_, ?_⟩
          · intro heq
            simp only [handleMoveUp, hfind, if_pos hdec, hs, hmz]
            rw [if_pos (le_of_eq heq.symm)]
          · intro hne2
            have hlt : item.zIndex < foldMax z0 zs0 :=
              lt_of_le_of_ne (hub item (by rw [← hCeq]; exact hitemC)) hne2
            simp only [handleMoveUp, hfind, if_pos hdec, hs, hmz]
            rw [if_neg (not_le.2 hlt)]
        exact ⟨fun hne => absurd hFnil hne, main2, honly_of main2⟩
    · obtain ⟨hlowF, hlowmin⟩ := mergeSort_zAsc_head_min hs
      have hlowO : low ∈ overlapAbove prev item := by
        rw [← hFo]
        exact hlowF
      have hFne : overlapAbove prev item ≠ [] := by
        intro hnil
        rw [hnil] at hlowO
        exact absurd hlowO (List.not_mem_nil low)
      have main2 : overlapAbove prev item = [] →
          ∃ M, (∃ j ∈ classItems prev item, j.zIndex = M) ∧
            (∀ j ∈ classItems prev item, j.zIndex ≤ M) ∧
            (item.zIndex = M → handleMoveUp id now prev = prev) ∧
            (item.zIndex ≠ M →
              handleMoveUp id now prev =
                prev.map fun i =>
                  if i.id = id then { i with zIndex := M + 1, updatedAt := now } else i) :=
        fun hcontra => absurd hcontra hFne
      refine ⟨?_, main2, honly_of main2⟩
      intro _
      refine ⟨low.zIndex, ⟨low, hlowO, rfl⟩, ?_, ?_⟩
      · intro j hj
        rw [← hFo] at hj
        exact hlowmin j hj
      · simp only [handleMoveUp, hfind, if_pos hdec, hs]
  · have hclassB : ∀ i, sameLayeringClass i item = decide (i.type ≠ ItemType.decoration) := by
      intro i
      simp [sameLayeringClass, hdec]
    have hFo : (prev.filter fun i =>
        decide (i.type ≠ ItemType.decoration) && decide (i.id ≠ id) && itemsOverlap item i).filter
          (fun i => decide (item.zIndex < i.zIndex)) = overlapAbove prev item := by
      rw [List.filter_filter, overlapAbove]
      refine List.filter_congr fun i _ => ?_
      rw [hclassB i, hid, Bool.and_comm]
    have hCeq : prev.filter (fun i => decide (i.type ≠ ItemType.decoration)) =
        classItems prev item := by
      rw [classItems]
      exact List.filter_congr fun i _ => (hclassB i).symm
    rcases hs : ((prev.filter fun i =>
        decide (i.type ≠ ItemType.decoration) && decide (i.id ≠ id) && itemsOverlap item i).filter
          (fun i => decide (item.zIndex < i.zIndex))).mergeSort zAsc with _ | ⟨low, rest⟩
    · have hFnil : overlapAbove prev item = [] := by
        rw [← hFo]
        exact mergeSort_eq_nil_iff.1 hs
      have hitemC : item ∈ prev.filter (fun i => decide (i.type ≠ ItemType.decoration)) :=
        List.mem_filter.2 ⟨hmem, by simp [hdec]⟩
      rcases hmz : ((prev.filter fun i =>
          decide (i.type ≠ ItemType.decoration)).map fun i => i.zIndex) with _ | ⟨z0, zs0⟩
      · exfalso
        have hin := hitemC
        rw [List.map_eq_nil_iff.1 hmz] at hin
        exact absurd hin (List.not_mem_nil item)
      · have hub : ∀ j ∈ classItems prev item, j.zIndex ≤ foldMax z0 zs0 := by
          intro j hj
          rw [← hCeq] at hj
          have hjz : j.zIndex ∈ z0 :: zs0 := by
            rw [← hmz]
            exact List.mem_map.2 ⟨j, hj, rfl⟩
          exact foldMax_is_ub hjz
        have hat : ∃ j ∈ classItems prev item, j.zIndex = foldMax z0 zs0 := by
          have hmm : foldMax z0 zs0 ∈ z0 :: zs0 := foldMax_mem_cons z0 zs0
          rw [← hmz] at hmm
          rcases List.mem_map.1 hmm with ⟨j, hj, hjz⟩
          exact ⟨j, by rw [← hCeq]; exact hj, hjz⟩
        have main2 : overlapAbove prev item = [] →
            ∃ M, (∃ j ∈ classItems prev item, j.zIndex = M) ∧
              (∀ j ∈ classItems prev item, j.zIndex ≤ M) ∧
              (item.zIndex = M → handleMoveUp id now prev = prev) ∧
              (item.zIndex ≠ M →
                handleMoveUp id now prev =
                  prev.map fun i =>
                    if i.id = id then { i with zIndex := M + 1, updatedAt := now } else i) := by
          intro _
          refine ⟨foldMax z0 zs0, hat, hub, ?_, ?_⟩
          · intro heq
            simp only [handleMoveUp, hfind, if_neg hdec, hs, hmz]
            rw [if_pos (le_of_eq heq.symm)]
          · intro hne2
            have hlt : item.zIndex < foldMax z0 zs0 :=
              lt_of_le_of_ne (hub item (by rw [← hCeq]; exact hitemC)) hne2
            simp only [handleMoveUp, hfind, if_neg hdec, hs, hmz]
            rw [if_neg (not_le.2 hlt)]
        exact ⟨fun hne => absurd hFnil hne, main2, honly_of main2⟩
    · obtain ⟨hlowF, hlowmin⟩ := mergeSort_zAsc_head_min hs
      have hlowO : low ∈ overlapAbove prev item := by
        rw [← hFo]
        exact hlowF
      have hFne : overlapAbove prev item ≠ [] := by
        intro hnil
        rw [hnil] at hlowO
        exact absurd hlowO (List.not_mem_nil low)
      have main2 : overlapAbove prev item = [] →
          ∃ M, (∃ j ∈ classItems prev item, j.zIndex = M) ∧
            (∀ j ∈ classItems prev item, j.zIndex ≤ M) ∧
            (item.zIndex = M → handleMoveUp id now prev = prev) ∧
            (item.zIndex ≠ M →
              handleMoveUp id now prev =
                prev.map fun i =>
                  if i.id = id then { i with zIndex := M + 1, updatedAt := now } else i) :=
        fun hcontra => absurd hcontra hFne
      refine ⟨?_, main2, honly_of main2⟩
      intro _
      refine ⟨low.zIndex, ⟨low, hlowO, rfl⟩, ?_, ?_⟩
      · intro j hj
        rw [← hFo] at hj
        exact hlowmin j hj
      · simp only [handleMoveUp, hfind, if_neg hdec, hs]

/-- The second photo of the reorder scenario: 100 × 100 at `(50, 50)`,
zIndex 2, overlapping `item1`. -/
def itemB : CanvasItem :=
  { id := "2"
    type := ItemType.photo
    x := 50
    y := 50
    width := 100
    height := 100
    rotation := 0
    zIndex := 2
    createdAt := 0
    updatedAt := 0 }

/-- Witness for C2, realizing the spec scenario: in
`[{id "1", z 1, (0,0,100,100)}, {id "2", z 2, (50,50,100,100)}]`,
`reorder("1", forward)` leapfrogs the overlapping neighbor above. -/
theorem C2_moveUp_reorder_locality_witness :
    ∃ m, (∃ j ∈ overlapAbove [item1, itemB] item1, j.zIndex = m) ∧
      (∀ j ∈ overlapAbove [item1, itemB] item1, m ≤ j.zIndex) ∧
      handleMoveUp "1" 9 [item1, itemB] =
        [item1, itemB].map fun i =>
          if i.id = "1" then { i with zIndex := m + 1, updatedAt := 9 } else i := by
  refine (C2_moveUp_reorder_locality [item1, itemB] "1" 9 item1 ?_).1 ?_
  · simp [item1]
  · intro hnil
    have hBmem : itemB ∈ overlapAbove [item1, itemB] item1 := by
      rw [overlapAbove]
      refine List.mem_filter.2 ⟨by simp, ?_⟩
      have hovl : itemsOverlap item1 itemB = true := by
        rw [itemsOverlap]
        norm_num [item1, itemB]
      rw [hovl]
      norm_num [sameLayeringClass, item1, itemB]
      decide
    rw [hnil] at hBmem
    exact absurd hBmem (List.not_mem_nil itemB)

/-! ### The click/drag idempotence claim (C3) -/

theorem abs_le_sqrt_left (a b : ℝ) : |a| ≤ Real.sqrt (a ^ 2 + b ^ 2) := by
  rw [← Real.sqrt_sq_eq_abs]
  exact Real.sqrt_le_sqrt (by nlinarith [sq_nonneg b])

theorem abs_le_sqrt_right (a b : ℝ) : |b| ≤ Real.sqrt (a ^ 2 + b ^ 2) := by
  rw [← Real.sqrt_sq_eq_abs]
  exact Real.sqrt_le_sqrt (by nlinarith [sq_nonneg a])

/-- C3 amended: a pointer-down followed by pointer-up leaves every item's
`x`, `y` and `rotation` unchanged (only the selection may change, the
down-event selecting the item if it was not already selected) when the
down-point was classified as a drag affordance and no intervening move's
displacement from the down-point exceeds the 5-pixel threshold, or when
it was classified as a rotate affordance and there were no intervening
moves at all.  (In the rotate case even a sub-threshold move mutates
rotation — see the counterexample.) -/
theorem C3_click_idempotence_amended (itemId : String) (rect : DOMRect)
    (scale now : ℝ) (items : List RItem) (sel : Option String)
    (hfind : (items.find? fun i => decide (i.id = itemId)).isSome)
    (down : ℝ × ℝ) (moves : List (ℝ × ℝ))
    (hcase :
      (checkCornerType down rect scale false ≠ some CornerType.rotate ∧
        ∀ m ∈ moves, Real.sqrt ((m.1 - down.1) ^ 2 + (m.2 - down.2) ^ 2) ≤ 5) ∨
      (checkCornerType down rect scale false = some CornerType.rotate ∧ moves = [])) :
    (mrun itemId rect scale now ⟨items, sel, false, false, none, none⟩
        (MEvent.down down.1 down.2 :: (moves.map fun m => MEvent.move m.1 m.2) ++
          [MEvent.up])).items = items ∧
    (mrun itemId rect scale now ⟨items, sel, false, false, none, none⟩
        (MEvent.down down.1 down.2 :: (moves.map fun m => MEvent.move m.1 m.2) ++
          [MEvent.up])).selectedId =
      (if sel = some itemId then sel else some itemId) := by
  obtain ⟨item, hitem⟩ : ∃ item, items.find? (fun i => decide (i.id = itemId)) = some item := by
    rcases hfi : items.find? (fun i => decide (i.id = itemId)) with _ | it
    · rw [hfi] at hfind
      exact absurd hfind (by simp)
    · exact ⟨it, hfi⟩
  have hup_drag : ∀ (sel'' : Option String) (ds : DragStateM),
      mouseUpM ⟨items, sel'', false, false, some ds, none⟩ =
        ⟨items, sel'', false, false, none, none⟩ := fun _ _ => rfl
  have hup_rot : ∀ (sel'' : Option String) (rs : RotateStateM),
      mouseUpM ⟨items, sel'', false, true, none, some rs⟩ =
        ⟨items, sel'', false, false, none, none⟩ := fun _ _ => rfl
  rcases hcase with ⟨hCT, hsub⟩ | ⟨hCT, hmonil⟩
  · have hdown : mstep itemId rect scale now ⟨items, sel, false, false, none, none⟩
        (MEvent.down down.1 down.2) =
        ⟨items, if sel = some itemId then sel else some itemId, false, false,
          some ⟨down.1, down.2, item.x, item.y⟩, none⟩ := by
      simp only [mstep, handleMouseDownM, hitem, Prod.mk.eta]
      rw [if_neg hCT]
      by_cases hselc : sel = some itemId
      · rw [if_pos hselc, if_pos hselc]
      · rw [if_neg hselc, if_neg hselc]
    have hmoves : ∀ (ms : List (ℝ × ℝ)),
        (∀ m ∈ ms, Real.sqrt ((m.1 - down.1) ^ 2 + (m.2 - down.2) ^ 2) ≤ 5) →
        ∀ (sel'' : Option String) (ds : DragStateM),
          ds.startX = down.1 → ds.startY = down.2 →
          List.foldl (mstep itemId rect scale now)
            ⟨items, sel'', false, false, some ds, none⟩
            (ms.map fun m => MEvent.move m.1 m.2) =
            ⟨items, sel'', false, false, some ds, none⟩ := by
      intro ms
      induction ms with
      | nil =>
        intro _ sel'' ds _ _
        rfl
      | cons m ms ih =>
        intro hub sel'' ds h1 h2
        rw [List.map_cons, List.foldl_cons]
        have hm := hub m (List.mem_cons_self m ms)
        have b1 : |m.1 - ds.startX| ≤ 5 := by
          rw [h1]
          exact le_trans (abs_le_sqrt_left _ _) hm
        have b2 : |m.2 - ds.startY| ≤ 5 := by
          rw [h2]
          exact le_trans (abs_le_sqrt_right _ _) hm
        have hstep : mstep itemId rect scale now
            ⟨items, sel'', false, false, some ds, none⟩ (MEvent.move m.1 m.2) =
            ⟨items, sel'', false, false, some ds, none⟩ := by
          simp only [mstep, mouseMoveM]
          rw [if_pos (by simp)]
          rw [if_neg ?hthr]
          case hthr =>
            intro hor
            rcases hor with hgt | hgt
            · exact absurd hgt (not_lt.2 b1)
            · exact absurd hgt (not_lt.2 b2)
        rw [hstep]
        exact ih (fun m' hm' => hub m' (List.mem_cons_of_mem m hm')) sel'' ds h1 h2
    have hfull : mrun itemId rect scale now ⟨items, sel, false, false, none, none⟩
        (MEvent.down down.1 down.2 :: (moves.map fun m => MEvent.move m.1 m.2) ++
          [MEvent.up]) =
        ⟨items, if sel = some itemId then sel else some itemId, false, false,
          none, none⟩ := by
      have hinner : List.foldl (mstep itemId rect scale now)
          ⟨items, sel, false, false, none, none⟩
          (MEvent.down down.1 down.2 :: List.map (fun m => MEvent.move m.1 m.2) moves) =
          ⟨items, if sel = some itemId then sel else some itemId, false, false,
            some ⟨down.1, down.2, item.x, item.y⟩, none⟩ := by
        rw [List.foldl_cons, hdown, hmoves moves hsub _ _ rfl rfl]
      rw [mrun, List.foldl_append, hinner, List.foldl_cons, List.foldl_nil]
      exact hup_drag _ _
    exact ⟨by rw [hfull], by rw [hfull]⟩
  · subst hmonil
    have hdown : mstep itemId rect scale now ⟨items, sel, false, false, none, none⟩
        (MEvent.down down.1 down.2) =
        ⟨items, if sel = some itemId then sel else some itemId, false, true, none,
          some ⟨atan2 (down.2 - (rect.top + rect.height / 2))
              (down.1 - (rect.left + rect.width / 2)),
            item.rotation, rect.left + rect.width / 2, rect.top + rect.height / 2⟩⟩ := by
      simp only [mstep, handleMouseDownM, hitem, Prod.mk.eta]
      rw [if_pos hCT]
      by_cases hselc : sel = some itemId
      · rw [if_pos hselc, if_pos hselc]
      · rw [if_neg hselc, if_neg hselc]
    have hfull : mrun itemId rect scale now ⟨items, sel, false, false, none, none⟩
        (MEvent.down down.1 down.2 :: (([] : List (ℝ × ℝ)).map fun m => MEvent.move m.1 m.2) ++
          [MEvent.up]) =
        ⟨items, if sel = some itemId then sel else some itemId, false, false,
          none, none⟩ := by
      have hinner : List.foldl (mstep itemId rect scale now)
          ⟨items, sel, false, false, none, none⟩ [MEvent.down down.1 down.2] =
          ⟨items, if sel = some itemId then sel else some itemId, false, true, none,
            some ⟨atan2 (down.2 - (rect.top + rect.height / 2))
                (down.1 - (rect.left + rect.width / 2)),
              item.rotation, rect.left + rect.width / 2, rect.top + rect.height / 2⟩⟩ := by
        rw [List.foldl_cons, hdown, List.foldl_nil]
      rw [mrun, List.map_nil, List.foldl_append, hinner, List.foldl_cons, List.foldl_nil]
      exact hup_rot _ _
    exact ⟨by rw [hfull], by rw [hfull]⟩

/-- A one-item collection for the pointer-interaction scenarios. -/
def rItem1 : RItem :=
  { id := "1"
    x := 0
    y := 0
    rotation := 0
    updatedAt := 0 }

/-- Witness for the amended C3: a drag-classified down at the center of a
100 × 40 element with no intervening moves leaves the item untouched and
selects it. -/
theorem C3_click_idempotence_amended_witness :
    (mrun "1" ⟨0, 0, 100, 40⟩ 1 2 ⟨[rItem1], none, false, false, none, none⟩
        [MEvent.down 50 20, MEvent.up]).items = [rItem1] ∧
    (mrun "1" ⟨0, 0, 100, 40⟩ 1 2 ⟨[rItem1], none, false, false, none, none⟩
        [MEvent.down 50 20, MEvent.up]).selectedId = some "1" := by
  have hnex : ¬ ∃ corner ∈ corners ⟨0, 0, 100, 40⟩,
      Real.sqrt ((((50 : ℝ), (20 : ℝ)).1 - corner.1) ^ 2 +
        (((50 : ℝ), (20 : ℝ)).2 - corner.2) ^ 2) < 30 / 1 := by
    rintro ⟨c, hc, hlt⟩
    rw [show (30 : ℝ) / 1 = 30 from by norm_num, Real.sqrt_lt' (by norm_num)] at hlt
    simp only [corners, DOMRect.right, DOMRect.bottom, List.mem_cons,
      List.not_mem_nil, or_false] at hc
    rcases hc with rfl | rfl | rfl | rfl <;> norm_num at hlt
  have hct : checkCornerType ((50 : ℝ), (20 : ℝ)) ⟨0, 0, 100, 40⟩ 1 false ≠
      some CornerType.rotate := by
    have hd := (checkCornerType_spec ((50 : ℝ), (20 : ℝ)) ⟨0, 0, 100, 40⟩ 1).2.2 hnex
    rw [hd]
    simp
  have h := C3_click_idempotence_amended "1" ⟨0, 0, 100, 40⟩ 1 2 [rItem1] none
    (by simp [rItem1]) (50, 20) [] (Or.inl ⟨hct, by simp⟩)
  exact ⟨h.1, h.2⟩

/-- C3 counterexample: a pointer-down at the corner `(40, 40)` of a
40 × 40 element is classified rotate; one intervening move to `(45, 40)`
— whose displacement from the down-point is exactly 5, not exceeding the
5-pixel drag threshold — already mutates the item's rotation before
pointer-up, so the claim fails for rotate-affordance downs. -/
theorem C3_click_idempotence_counterexample :
    checkCornerType ((40 : ℝ), (40 : ℝ)) ⟨0, 0, 40, 40⟩ 1 false =
      some CornerType.rotate ∧
    Real.sqrt (((45 : ℝ) - 40) ^ 2 + ((40 : ℝ) - 40) ^ 2) ≤ 5 ∧
    ((mrun "1" ⟨0, 0, 40, 40⟩ 1 1 ⟨[rItem1], none, false, false, none, none⟩
        [MEvent.down 40 40, MEvent.move 45 40, MEvent.up]).items.headD rItem1).rotation ≠
      rItem1.rotation := by
  have hCT : checkCornerType ((40 : ℝ), (40 : ℝ)) ⟨0, 0, 40, 40⟩ 1 false =
      some CornerType.rotate := by
    refine (checkCornerType_spec ((40 : ℝ), (40 : ℝ)) ⟨0, 0, 40, 40⟩ 1).1.2
      ⟨((⟨0, 0, 40, 40⟩ : DOMRect).right, (⟨0, 0, 40, 40⟩ : DOMRect).bottom), ?_, ?_⟩
    · rw [corners]
      exact List.mem_cons_of_mem _ (List.mem_cons_of_mem _
        (List.mem_cons_of_mem _ (List.mem_cons_self _ _)))
    · have harg : (((40 : ℝ), (40 : ℝ)).1 - (⟨0, 0, 40, 40⟩ : DOMRect).right) ^ 2 +
          (((40 : ℝ), (40 : ℝ)).2 - (⟨0, 0, 40, 40⟩ : DOMRect).bottom) ^ 2 = 0 := by
        norm_num [DOMRect.right, DOMRect.bottom]
      rw [harg, Real.sqrt_zero]
      norm_num
  have ha1 : atan2 (20 : ℝ) 25 = Real.arctan (4 / 5) := by
    rw [atan2, if_pos (by norm_num : (0 : ℝ) < 25)]
    norm_num
  have ha2 : atan2 (20 : ℝ) 20 = Real.arctan 1 := by
    rw [atan2, if_pos (by norm_num : (0 : ℝ) < 20)]
    norm_num
  have hitem : [rItem1].find? (fun i => decide (i.id = "1")) = some rItem1 := by
    simp [rItem1]
  have hstep1 : mstep "1" ⟨0, 0, 40, 40⟩ 1 1 ⟨[rItem1], none, false, false, none, none⟩
      (MEvent.down 40 40) =
      ⟨[rItem1], some "1", false, true, none,
        some ⟨Real.arctan 1, 0, 20, 20⟩⟩ := by
    simp only [mstep, handleMouseDownM, hitem, Prod.mk.eta]
    rw [if_pos hCT]
    rw [if_neg (by simp : ¬ (none : Option String) = some "1")]
    norm_num [rItem1, ha2]
  have hstep2 : mstep "1" ⟨0, 0, 40, 40⟩ 1 1
      (⟨[rItem1], some "1", false, true, none,
        some ⟨Real.arctan 1, 0, 20, 20⟩⟩ : InteractionState)
      (MEvent.move 45 40) =
      ⟨[{ id := "1", x := 0, y := 0,
          rotation := (Real.arctan (4 / 5) - Real.arctan 1) * 180 / Real.pi,
          updatedAt := 1 }], some "1", false, true, none,
        some ⟨Real.arctan 1, 0, 20, 20⟩⟩ := by
    simp only [mstep, mouseMoveM]
    rw [if_neg (by simp)]
    rw [if_neg (by simp)]
    rw [if_pos (by simp)]
    norm_num [rHandleRotate, rItem1, ha1]
  have hrun : (mrun "1" ⟨0, 0, 40, 40⟩ 1 1 ⟨[rItem1], none, false, false, none, none⟩
      [MEvent.down 40 40, MEvent.move 45 40, MEvent.up]).items =
      [{ id := "1", x := 0, y := 0,
         rotation := (Real.arctan (4 / 5) - Real.arctan 1) * 180 / Real.pi,
         updatedAt := 1 }] := by
    rw [mrun, List.foldl_cons, hstep1, List.foldl_cons, hstep2, List.foldl_cons,
      List.foldl_nil]
    rfl
  refine ⟨hCT, ?_, ?_⟩
  · rw [show ((45 : ℝ) - 40) ^ 2 + ((40 : ℝ) - 40) ^ 2 = 25 from by norm_num,
      show (25 : ℝ) = 5 ^ 2 from by norm_num, Real.sqrt_sq (by norm_num)]
  · rw [hrun]
    simp only [List.headD_cons]
    have hlt : Real.arctan (4 / 5) < Real.arctan 1 :=
      Real.arctan_strictMono (by norm_num)
    have hπ := Real.pi_pos
    have hneg : (Real.arctan (4 / 5) - Real.arctan 1) * 180 / Real.pi < 0 :=
      div_neg_of_neg_of_pos (by nlinarith) hπ
    exact ne_of_lt hneg
